import Mathlib

/-!  Verification development for the edit-plan normalization and enrichment
engine of the video backend (`plan_generation/make_plan.py` and
`python-be/plan_generation/enrich_plan.py`).

Modelling conventions:
* Python floats carrying timing data are modelled as exact rationals (`ℚ`);
  `round(x, n)` is modelled as decimal round-half-to-even, CPython's
  documented behaviour.
* Python strings are modelled as Lean strings; case mapping is ASCII
  (all string literals in the repository's tables are ASCII).
* JSON values are modelled by the inductive type `Value`; `dict.get`,
  truthiness and `or`-chains follow CPython semantics.  Python `int` and
  `float` are conflated into one numeric constructor.
* In the enrichment structures, a field that is present but has a value of
  an unexpected runtime type is modelled as absent (the code guards every
  such read with `isinstance` or a `try`/`except`; the few unguarded reads
  are noted where they occur).
-/

namespace VideoBE

/-- Python `round` to an integer: round half to even. -/
def pyRoundInt (x : ℚ) : ℤ :=
  let f : ℤ := ⌊x⌋
  let r : ℚ := x - f
  if r < 1/2 then f
  else if 1/2 < r then f + 1
  else if f % 2 = 0 then f else f + 1

/-- Python `round(x, 2)`. -/
def round2 (x : ℚ) : ℚ := (pyRoundInt (x * 100) : ℚ) / 100

/-- Python `round(x, 3)`. -/
def round3 (x : ℚ) : ℚ := (pyRoundInt (x * 1000) : ℚ) / 1000

/-- Stable insertion into a list sorted by the strict comparator `lt`:
`x` goes in front of the first element not strictly below it, so elements
comparing equal keep their relative order (Python's sort is stable). -/
def insertLt (lt : α → α → Bool) (x : α) : List α → List α
  | [] => [x]
  | y :: ys => if lt y x then y :: insertLt lt x ys else x :: y :: ys

/-- Stable insertion sort with strict comparator `lt`; extensionally equal to
Python's `sorted` for a comparator induced by a key function. -/
def sortStable (lt : α → α → Bool) : List α → List α
  | [] => []
  | x :: xs => insertLt lt x (sortStable lt xs)

/-- Python `sorted(l, key=key)`. -/
def sortByKey [LinearOrder β] (key : α → β) (l : List α) : List α :=
  sortStable (fun a b => decide (key a < key b)) l

/-! ### Python string helpers (ASCII case model) -/

/-- Python `str.strip()` (whitespace). -/
def pyStrip (s : String) : String :=
  String.mk (((s.toList.dropWhile Char.isWhitespace).reverse.dropWhile Char.isWhitespace).reverse)

/-- Python `str.lower()` (ASCII). -/
def pyLower (s : String) : String := String.mk (s.toList.map Char.toLower)

/-- Python `str.upper()` (ASCII). -/
def pyUpper (s : String) : String := String.mk (s.toList.map Char.toUpper)

/-- Python `str.isupper()`: at least one cased character and no lowercase one. -/
def isUpperStr (s : String) : Bool :=
  let cased := s.toList.filter (fun c => c.isUpper || c.isLower)
  !cased.isEmpty && cased.all Char.isUpper

/-- Python `str.capitalize()`. -/
def pyCapitalize (s : String) : String :=
  match s.toList with
  | [] => ""
  | c :: cs => String.mk (c.toUpper :: cs.map Char.toLower)

/-- Python `str.title()`: a letter is uppercased when the previous character
is not a letter, lowercased otherwise. -/
def pyTitle (s : String) : String :=
  String.mk ((s.toList.foldl (fun (st : List Char × Bool) c =>
    if c.isAlpha then ((if st.2 then c.toLower else c.toUpper) :: st.1, true)
    else (c :: st.1, false)) ([], false)).1.reverse)

/-- Maximal runs of characters satisfying `p` (models `re.findall` of a
character-class pattern, and `str.split()` for `p = not-whitespace`). -/
def charRuns (p : Char → Bool) (l : List Char) : List (List Char) :=
  let fin := l.foldl (fun (st : List (List Char) × List Char) c =>
    if p c then (st.1, c :: st.2)
    else if st.2.isEmpty then (st.1, [])
    else (st.2.reverse :: st.1, [])) ([], [])
  (if fin.2.isEmpty then fin.1 else fin.2.reverse :: fin.1).reverse

/-- Python `str.split()` (on whitespace, dropping empties). -/
def pySplitWs (s : String) : List String :=
  (charRuns (fun c => !c.isWhitespace) s.toList).map String.mk

/-- `re.findall(r"[A-Za-z0-9]+", s)`. -/
def alnumTokens (s : String) : List String :=
  (charRuns Char.isAlphanum s.toList).map String.mk

/-- Does `l` start with `pre`? -/
def startsWithList [BEq α] : List α → List α → Bool
  | [], _ => true
  | _ :: _, [] => false
  | a :: as, b :: bs => a == b && startsWithList as bs

/-- Is `needle` a contiguous sublist of `hay`? -/
def infixOfList [BEq α] (needle : List α) : List α → Bool
  | [] => needle.isEmpty
  | c :: tl => startsWithList needle (c :: tl) || infixOfList needle tl

/-- Python `needle in hay` for strings. -/
def strContains (hay needle : String) : Bool :=
  infixOfList needle.toList hay.toList

/-- Zero-padded two-digit decimal (`f"{n:02d}"` for non-negative `n`). -/
def pad2 (n : ℕ) : String := if n < 10 then "0" ++ toString n else toString n

/-- Parse a decimal literal (optional sign, digits, optional fraction,
surrounded by optional whitespace), the fragment of Python `float(str)`
exercised by the repository's data.  Exponents are not modelled. -/
def parseDecimal (s : String) : Option ℚ :=
  let l := (s.toList.dropWhile Char.isWhitespace).reverse.dropWhile Char.isWhitespace |>.reverse
  let (sign, l) := match l with
    | '-' :: rest => ((-1 : ℚ), rest)
    | '+' :: rest => ((1 : ℚ), rest)
    | rest => ((1 : ℚ), rest)
  let intPart := l.takeWhile Char.isDigit
  let rest := l.drop intPart.length
  let digitsVal : List Char → ℕ := fun ds => ds.foldl (fun a c => a * 10 + (c.toNat - 48)) 0
  match rest with
  | [] => if intPart.isEmpty then none else some (sign * digitsVal intPart)
  | '.' :: frac =>
      if frac.all Char.isDigit && !(intPart.isEmpty && frac.isEmpty) then
        some (sign * ((digitsVal intPart : ℚ) + (digitsVal frac : ℚ) / (10 ^ frac.length)))
      else none
  | _ => none

/-! ### JSON values -/

/-- A parsed JSON value (Python objects flowing through the plan pipeline).
Python `int` and `float` are conflated into `num`; object keys are unique
(as produced by `json.load`). -/
inductive Value where
  | null
  | bool (b : Bool)
  | num (q : ℚ)
  | str (s : String)
  | arr (items : List Value)
  | obj (fields : List (String × Value))

/-- `dict.get(key)` (returns `None`/`null` when missing or not a dict). -/
def Value.get? : Value → String → Option Value
  | .obj fs, k => (fs.find? (fun p => p.1 == k)).map (fun p => p.2)
  | _, _ => none

/-- `dict.get(key, default)`. -/
def Value.getD (v : Value) (k : String) (d : Value) : Value := (v.get? k).getD d

/-- `dict.get(key)` with `None` as default. -/
def Value.pyGet (v : Value) (k : String) : Value := v.getD k .null

/-- Is the value a record (dict)? -/
def Value.isRecord : Value → Bool
  | .obj _ => true
  | _ => false

/-- Python truthiness. -/
def Value.truthy : Value → Bool
  | .null => false
  | .bool b => b
  | .num q => q != 0
  | .str s => !s.isEmpty
  | .arr l => !l.isEmpty
  | .obj l => !l.isEmpty

/-- First truthy value of an `or`-chain, if any. -/
def firstTruthy? (vs : List Value) : Option Value := vs.find? Value.truthy

/-- `a or b or ...` where the chain ends in a falsy literal:
first truthy value, else `null`. -/
def firstTruthyOrNull (vs : List Value) : Value := (firstTruthy? vs).getD .null

/-- Python `str(value)` for the scalar values that reach `str()` in the
pipeline (ids).  Container reprs are not modelled (no claim depends on
them); integral numbers print without a decimal point. -/
def pyStrOfValue : Value → String
  | .null => "None"
  | .bool b => if b then "True" else "False"
  | .num q => if q.den = 1 then toString q.num else toString q.num ++ "/" ++ toString q.den
  | .str s => s
  | .arr _ => "<list>"
  | .obj _ => "<dict>"

/-- `float(value)` under a `try/except (TypeError, ValueError)` returning
`default` on failure (`ensure_float` / `_safe_float` in the sources). -/
def ensure_float (v : Value) (default : ℚ) : ℚ :=
  match v with
  | .num q => q
  | .bool b => if b then 1 else 0
  | .str s => (parseDecimal s).getD default
  | _ => default

/-- Bare `float(value)` : `some` result or an exception. -/
def tryFloat : Value → Option ℚ
  | .num q => some q
  | .bool b => some (if b then 1 else 0)
  | .str s => parseDecimal s
  | _ => none

/-- Runtime errors that can escape the normalizer. -/
inductive PyError where
  | attributeError (msg : String)
  | valueError (msg : String)
deriving DecidableEq

/-- `(a or b or ... or "").strip()`: Python raises `AttributeError` when the
first truthy value is not a string. -/
def stripOr (vs : List Value) : Except PyError String :=
  match firstTruthy? vs with
  | none => .ok ""
  | some (.str s) => .ok (pyStrip s)
  | some _ => .error (.attributeError "strip")

/-- `(a or b or ... or "").lower()`, raising on a truthy non-string. -/
def lowerOr (vs : List Value) : Except PyError String :=
  match firstTruthy? vs with
  | none => .ok ""
  | some (.str s) => .ok (pyLower s)
  | some _ => .error (.attributeError "lower")

/-- Truthiness of an optional string (`None` and `""` are falsy). -/
def truthyOpt : Option String → Bool
  | some s => !s.isEmpty
  | none => false

/-- `a or b` on optional strings with Python truthiness. -/
def pyOrOpt (a b : Option String) : Option String :=
  if truthyOpt a then a else b

/-- `str(a or b or "")` on optional strings. -/
def orStr (a b : Option String) : String :=
  ((pyOrOpt (pyOrOpt a b) (some "")).getD "")

/-! ## Embedding of `plan_generation/make_plan.py` (Schema Normalizer) -/

namespace MakePlan

/-- `HIGHLIGHT_STOPWORDS`. -/
def HIGHLIGHT_STOPWORDS : List String :=
  ["a", "an", "the", "and", "or", "but", "so", "yet", "nor", "to", "of", "in",
   "on", "at", "by", "for", "from", "with", "without", "into", "onto", "about",
   "around", "over", "under", "after", "before", "between", "among", "through",
   "during", "within", "across", "against", "toward", "towards", "upon", "via",
   "this", "that", "these", "those", "there", "here", "then", "than", "when",
   "where", "while", "because", "since", "if", "though", "although", "unless",
   "until", "very", "really", "just", "maybe", "perhaps", "quite", "rather",
   "some", "any", "each", "every", "either", "neither", "both", "many", "much",
   "few", "little", "more", "most", "less", "least", "own", "same", "such",
   "i", "me", "my", "mine", "myself", "we", "us", "our", "ours", "ourselves",
   "you", "your", "yours", "yourself", "yourselves", "he", "him", "his",
   "himself", "she", "her", "hers", "herself", "it", "its", "itself", "they",
   "them", "their", "theirs", "themselves", "who", "whom", "whose", "which",
   "what", "whatever", "whoever", "whichever", "someone", "something",
   "anyone", "anything", "everyone", "everything", "not", "no", "yes", "ok",
   "okay", "uh", "um", "hmm", "ve", "re", "ll", "d", "s", "m"]

/-- `_ALLOWED_CONNECTORS` (make_plan, lowercase). -/
def ALLOWED_CONNECTORS : List String :=
  ["of", "for", "and", "&", "in", "on", "vs", "versus", "to", "with"]

/-- `_COMMON_VERB_TOKENS` (make_plan), already lowercase
(`_COMMON_VERB_TOKENS_LOWER`). -/
def COMMON_VERB_TOKENS : List String :=
  ["be", "am", "is", "are", "was", "were", "being", "been", "do", "does",
   "did", "doing", "have", "has", "had", "having", "will", "would", "shall",
   "should", "can", "could", "may", "might", "must", "need"]

/-- `_clean_token`: strip, then collapse internal whitespace runs to one
space. -/
def cleanToken (t : String) : String :=
  " ".intercalate (pySplitWs t)

/-- `_ALNUM_PATTERN.search` (does the token contain an ASCII alphanumeric?). -/
def hasAlnum (s : String) : Bool := s.toList.any Char.isAlphanum

/-- `_trim_edge_connectors`. -/
def trimEdgeConnectors (tokens : List String) : List String :=
  ((tokens.dropWhile (fun t => ALLOWED_CONNECTORS.contains (pyLower t))).reverse.dropWhile
    (fun t => ALLOWED_CONNECTORS.contains (pyLower t))).reverse

/-- `_has_future_content` inside `_filter_tokens_to_noun_phrase`. -/
def hasFutureContent (tokens : List String) (start : ℕ) : Bool :=
  (tokens.drop start).any (fun c =>
    let candidate := pyStrip c
    !candidate.isEmpty &&
      !COMMON_VERB_TOKENS.contains (pyLower candidate) &&
      hasAlnum candidate)

/-- `_filter_tokens_to_noun_phrase`. -/
def filterTokensCore (tokens : List String) : List String :=
  trimEdgeConnectors <| (tokens.enum.foldl (fun (selected : List String) p =>
    let normalized := cleanToken p.2
    if normalized.isEmpty then selected
    else
      let lower_token := pyLower normalized
      if ALLOWED_CONNECTORS.contains lower_token then
        if !selected.isEmpty && hasFutureContent tokens (p.1 + 1) then
          selected ++ [lower_token]
        else selected
      else if COMMON_VERB_TOKENS.contains lower_token then selected
      else if !hasAlnum normalized then selected
      else selected ++ [normalized]) [])

/-- The truncation loop of `filter_tokens_to_noun_phrase`: take tokens until
`max_tokens` non-connector tokens have been taken. -/
def takeContentTokens (m : ℕ) : List String → ℕ → List String
  | [], _ => []
  | t :: ts, c =>
      let c2 := if ALLOWED_CONNECTORS.contains (pyLower t) then c else c + 1
      if m ≤ c2 then [t] else t :: takeContentTokens m ts c2

/-- `filter_tokens_to_noun_phrase`. -/
def filter_tokens_to_noun_phrase (tokens : List String) (max_tokens : Option ℕ) :
    List String :=
  let cleaned := (tokens.map cleanToken).filter (fun t => !t.isEmpty)
  if cleaned.isEmpty then []
  else
    let filtered0 := filterTokensCore cleaned
    let filtered := if filtered0.isEmpty then cleaned else filtered0
    match max_tokens with
    | some m =>
        if 0 < m then
          let limited := takeContentTokens m filtered 0
          let trimmed := trimEdgeConnectors limited
          if trimmed.isEmpty then filtered else trimmed
        else filtered
    | none => filtered

/-- The token pattern of `sanitize_highlight_text`
(`[A-Za-z0-9À-ſ]+`). -/
def sanitizeTokenChar (c : Char) : Bool :=
  c.isAlphanum || (0xC0 ≤ c.toNat && c.toNat ≤ 0x17F)

/-- The first-non-empty-sanitized-candidate loop used for the primary text. -/
def firstNonEmptySanitized (sanitize : String → String) : List String → String
  | [] => ""
  | c :: cs =>
      if c.isEmpty then firstNonEmptySanitized sanitize cs
      else
        let sc := sanitize c
        if sc.isEmpty then firstNonEmptySanitized sanitize cs else sc

/-- `sanitize_highlight_text`. -/
def sanitize_highlight_text (value : String) : String :=
  if value.isEmpty then value
  else
    let original := " ".intercalate (pySplitWs value)
    if original.isEmpty then original
    else
      let tokens := (charRuns sanitizeTokenChar original.toList).map String.mk
      if tokens.isEmpty then original
      else
        let filtered := tokens.filter (fun t => !HIGHLIGHT_STOPWORDS.contains (pyLower t))
        let candidate0 := if filtered.isEmpty then tokens else filtered
        let noun_tokens := filter_tokens_to_noun_phrase candidate0 (some 6)
        let candidate1 := if noun_tokens.isEmpty then candidate0 else noun_tokens
        let candidate2 :=
          if candidate1.length < 2 && !tokens.isEmpty then
            let fallback_tokens := tokens.filter
              (fun t => !(["uh", "um", "ok", "okay", "hmm"].contains (pyLower t)))
            if 2 ≤ fallback_tokens.length then fallback_tokens.take 4
            else tokens.take 4
          else candidate1
        let phrase0 := pyStrip (" ".intercalate candidate2)
        let phrase := if phrase0.isEmpty then original else phrase0
        if phrase.isEmpty then pyStrip value
        else if isUpperStr phrase then phrase
        else
          let words := pySplitWs phrase
          let normalized := " ".intercalate
            (words.map (fun w => if isUpperStr w then w else pyCapitalize w))
          if normalized.length ≤ 1 then original
          else if (pySplitWs normalized).length == 1 && 2 ≤ (pySplitWs original).length then
            let fallback := " ".intercalate ((tokens.take 2).map pyCapitalize)
            if fallback.isEmpty then normalized else fallback
          else normalized

/-- `SECTION_TITLE_SUFFIXES`. -/
def SECTION_TITLE_SUFFIXES : List String :=
  ["Overview", "Insights", "Focus", "Spotlight", "Framework", "Recap", "Summary"]

/-- `format_section_title` (with the default fallback "Key Theme"). -/
def format_section_title (highlight_id base_phrase : String) : String × String :=
  let sanitized0 := if base_phrase.isEmpty then "" else sanitize_highlight_text base_phrase
  let sanitized := if sanitized0.isEmpty then "Key Theme" else sanitized0
  let suffix_index := highlight_id.toList.foldl (fun a c => a + c.toNat) 0
  let suffix := SECTION_TITLE_SUFFIXES.getD (suffix_index % SECTION_TITLE_SUFFIXES.length) ""
  let display :=
    if strContains (pyLower sanitized) (pyLower suffix) then sanitized
    else sanitized ++ " " ++ suffix
  (display, pyUpper display)

/-- `.replace(" ", "").replace("-", "").replace("_", "")`. -/
def removeSpaceDashUnderscore (s : String) : String :=
  String.mk (s.toList.filter (fun c => c != ' ' && c != '-' && c != '_'))

/-- `Path(s).name` (component after the last slash; pathlib drops empty
components). -/
def pathName (s : String) : String :=
  (((s.splitOn "/").filter (fun p => !p.isEmpty)).getLast?).getD ""

/-- `Path(s).stem` (name without its last extension). -/
def pathStem (s : String) : String :=
  let name := pathName s
  let cs := name.toList
  match ((cs.enum.filter (fun p => p.2 == '.')).map (fun p => p.1)).getLast? with
  | some i => if 0 < i then String.mk (cs.take i) else name
  | none => name

/-- `ensure_bool`. -/
def ensure_bool (v : Value) (default : Bool) : Bool :=
  match v with
  | .bool b => b
  | .num q => q != 0
  | .str s =>
      let normalized := pyLower (pyStrip s)
      if normalized.isEmpty then default
      else if ["true", "1", "yes", "y", "on"].contains normalized then true
      else if ["false", "0", "no", "n", "off"].contains normalized then false
      else default
  | .null => default
  | v => v.truthy

/-- `normalize_segment_kind`. -/
def normalize_segment_kind (v : Value) : Option String :=
  match v with
  | .null => none
  | .str s =>
      let normalized := removeSpaceDashUnderscore (pyLower (pyStrip s))
      if normalized.isEmpty then none
      else if ["broll", "brollplaceholder", "placeholderbroll"].contains normalized then some "broll"
      else if strContains normalized "broll" then some "broll"
      else some "normal"
  | _ => some "normal"

/-- `normalize_camera_movement`. -/
def normalize_camera_movement (v : Value) : Option String :=
  match v with
  | .null => none
  | _ =>
      let normalized := removeSpaceDashUnderscore (pyLower (pyStrip (pyStrOfValue v)))
      if ["zoomin", "pushin", "push"].contains normalized then some "zoomIn"
      else if ["zoomout", "pullback", "pull"].contains normalized then some "zoomOut"
      else none

/-- `normalize_sfx_name`; `lookup` stands for `SFX_LOOKUP`, which the module
builds by scanning the repository's `assets/sfx` directory, so it is passed
here as a parameter. -/
def normalize_sfx_name (lookup : List (String × String)) (v : Value) : Option String :=
  match v with
  | .null => none
  | _ =>
      let candidate := pyStrip (pyStrOfValue v)
      if candidate.isEmpty then none
      else
        let cn0 := String.mk ((candidate.toList.map (fun c => if c == '\\' then '/' else c)).dropWhile
          (fun c => c == '.' || c == '/'))
        let cn1 := if cn0.startsWith "assets/" then cn0.drop 7 else cn0
        let cn := if cn1.startsWith "sfx/" then cn1.drop 4 else cn1
        let checks := [pyLower cn, pyLower (pathName cn), pyLower (pathStem cn)]
        checks.foldl (fun acc k =>
          match acc with
          | some m => some m
          | none =>
              if k.isEmpty then none
              else match lookup.find? (fun p => p.1 == k) with
                   | some p => if p.2.isEmpty then none else some p.2
                   | none => none) none

/-- Normalized transitions (`cut` carries no duration). -/
structure Transition where
  type : String
  duration : Option ℚ
  direction : Option String
  intensity : Option ℚ
deriving DecidableEq

def TRANSITION_TYPES : List String :=
  ["cut", "crossfade", "slide", "zoom", "scale", "rotate", "blur"]

def TRANSITION_DIRECTIONS : List String := ["left", "right", "up", "down"]

/-- The alias mapping and clamping of `normalize_transition`, after the raw
type/direction/duration/intensity fields were extracted. -/
def transition_td (ttype0 : String) (direction0 : Option String) :
    String × Option String :=
  if ttype0 == "fade" || ttype0 == "dissolve" then ("crossfade", direction0)
  else if ["slide-left", "slide-right", "slide-up", "slide-down"].contains ttype0 then
    ("slide", match TRANSITION_DIRECTIONS.find? (fun c => strContains ttype0 c) with
              | some d => some d
              | none => direction0)
  else if ["zoom-in", "zoom-out", "push", "push-in", "push-out", "punch",
           "punch-in", "punch-out"].contains ttype0 then ("zoom", direction0)
  else if ["scale-up", "scale-down", "grow", "shrink"].contains ttype0 then ("scale", direction0)
  else if ["spin", "twist", "turn"].contains ttype0 then ("rotate", direction0)
  else if ["focus", "defocus", "dream", "soft-focus", "soften"].contains ttype0 then ("blur", direction0)
  else (ttype0, direction0)

/-- The `type`/`direction` alias resolution, clamping and field assembly of
`normalize_transition`. -/
def normalizeTransitionCore (ttype0 : String) (direction0 : Option String)
    (dur : Option ℚ) (inten : Option ℚ) : Option Transition :=
  let td : String × Option String := transition_td ttype0 direction0
  let ttype := if TRANSITION_TYPES.contains td.1 then td.1 else "cut"
  if ttype == "cut" then some { type := "cut", duration := none, direction := none, intensity := none }
  else
    let duration_value0 : ℚ := match dur with
      | some d => if d != 0 && 0 < d then d else 3/5
      | none => 3/5
    let duration_value := max (1/10) (min duration_value0 3)
    let intensity_value : Option ℚ := match inten with
      | some i => if i ≤ 0 then none else some (round3 (max (1/20) (min i (3/5))))
      | none => none
    some { type := ttype,
           duration := some (round3 duration_value),
           direction :=
             if ttype == "slide" &&
                 (match td.2 with
                  | some d => TRANSITION_DIRECTIONS.contains d
                  | none => false) then td.2 else none,
           intensity :=
             if ["zoom", "scale", "rotate", "blur"].contains ttype &&
                 (match intensity_value with | some i => i != 0 | none => false) then
               intensity_value
             else none }

/-- `normalize_transition`; extracting `type`/`style` from a dict can raise
`AttributeError` when the first truthy value is not a string. -/
def normalize_transition (v : Value) : Except PyError (Option Transition) :=
  match v with
  | .null => .ok none
  | .str s => .ok (normalizeTransitionCore (pyLower s) none none none)
  | .obj _ => do
      let ttype ← lowerOr [v.pyGet "type", v.pyGet "style"]
      let dirRaw ← lowerOr [v.pyGet "direction", v.pyGet "dir"]
      let direction := if dirRaw.isEmpty then none else some dirRaw
      let duration_value := ensure_float (v.getD "duration" (v.getD "length" (.num 0))) 0
      let intensity_value := ensure_float (v.getD "intensity" (v.getD "strength" (.num 0))) 0
      .ok (normalizeTransitionCore ttype direction (some duration_value) (some intensity_value))
  | _ => .ok none

/-- A subtitle entry as produced by `parse_srt`.  Timecodes are stored as
seconds: `parse_srt` only accepts lines matching `TIMECODE_RE`, on which
`seconds_from_timecode` is total, so its result is precomputed here.
`text_one_line` is the `SrtEntry.text_one_line` property. -/
structure SrtEntry where
  index : ℤ
  startSec : ℚ
  endSec : ℚ
  text_one_line : String
deriving DecidableEq

/-- `SRT_HIGHLIGHT_ID_RE.match` on an already lowercased id. -/
def parseSrtId (s : String) : Option ℕ :=
  if s.startsWith "srt-" then
    let digits := (s.drop 4).toList
    if !digits.isEmpty && digits.all Char.isDigit then
      some (digits.foldl (fun a c => a * 10 + (c.toNat - 48)) 0)
    else none
  else none

def HIGHLIGHT_POSITIONS : List String := ["bottom", "center"]

def HIGHLIGHT_VARIANTS : List String :=
  ["callout", "blurred", "brand", "cutaway", "typewriter"]

def MAX_HIGHLIGHTS : ℕ := 18

def DEFAULT_HIGHLIGHT_DURATION : ℚ := 26/10

/-- The `type_map` literal of `normalize_highlight_item`. -/
def TYPE_MAP : List (String × String) :=
  [("highlight", "noteBox"), ("caption", "noteBox"), ("callout", "noteBox"),
   ("notebox", "noteBox"), ("notecard", "noteBox"), ("quote", "noteBox"),
   ("typewriter", "typewriter"), ("section", "sectionTitle"),
   ("sectiontitle", "sectionTitle"), ("titlecard", "sectionTitle"),
   ("chapter", "sectionTitle"), ("icon", "icon"), ("iconhighlight", "icon")]

/-- The `animation_map` literal. -/
def ANIMATION_MAP : List (String × String) :=
  [("fade", "fade"), ("fadein", "fade"), ("zoom", "zoom"), ("zoomin", "zoom"),
   ("punch", "pop"), ("punchin", "pop"), ("pop", "pop"), ("popin", "pop"),
   ("bounce", "bounce"), ("float", "float"), ("floating", "float"),
   ("flip", "flip"), ("spin", "spin"), ("rotate", "spin"),
   ("typewriter", "typewriter"), ("pulse", "pulse"), ("breath", "pulse"),
   ("beat", "pulse"), ("slide", "slide"), ("slideup", "slide"),
   ("slidedown", "slide"), ("slideleft", "slide"), ("slideright", "slide")]

/-- The `variant_map` literal. -/
def VARIANT_MAP : List (String × String) :=
  [("callout", "callout"), ("default", "callout"), ("bubble", "callout"),
   ("blur", "blurred"), ("blurred", "blurred"), ("blurredbackdrop", "blurred"),
   ("brand", "brand"), ("brandpanel", "brand"), ("cutaway", "cutaway"),
   ("black", "cutaway"), ("typewriter", "typewriter")]

/-- A normalized highlight as built by `normalize_highlight_item`.
A `none` field is a key the function did not write; `showBottom` is only
ever written as `True`, so absence is modelled as `false`. -/
structure NHighlight where
  id : String
  start : ℚ
  duration : ℚ
  position : String
  animation : String
  type : Option String
  text : Option String
  keyword : Option String
  importance : Option String
  showBottom : Bool
  safeBottom : Option ℚ
  safeInsetHorizontal : Option ℚ
  title : Option String
  subtitle : Option String
  badge : Option String
  name : Option String
  icon : Option String
  asset : Option String
  variant : Option String
  sfx : Option String
  accentColor : Option String
  backgroundColor : Option String
  iconColor : Option String
  supportingLeft : Option String
  supportingRight : Option String
  layout : Option String
  side : Option String
  staggerLeft : Option ℚ
  staggerRight : Option ℚ
  radius : Option ℚ
  volume : Option ℚ
deriving DecidableEq

/-- `coerce_supporting` inside `normalize_highlight_item`. -/
def coerceSupporting : Option Value → Option String
  | some (.str s) =>
      let cleaned := sanitize_highlight_text (pyStrip s)
      if cleaned.isEmpty then none else some cleaned
  | _ => none

/-- The raw text fields of `normalize_highlight_item` whose extraction runs
an `(... or "").strip()` chain (which raises `AttributeError` on a truthy
non-string). -/
structure RawHlStrings where
  text_raw0 : String
  title_raw : String
  subtitle_raw : String
  badge_raw : String
  name_raw : String
  icon_value : String
deriving DecidableEq

/-- The `.strip()` extraction chains that run before the empty-content
early return of `normalize_highlight_item`. -/
def extract_hl_strings (raw : Value) : Except PyError RawHlStrings := do
  let text_raw0 ← stripOr [raw.pyGet "text", raw.pyGet "caption"]
  let title_raw ← stripOr [raw.pyGet "title"]
  let subtitle_raw ← stripOr [raw.pyGet "subtitle"]
  let badge_raw ← stripOr [raw.pyGet "badge"]
  let name_raw ← stripOr [raw.pyGet "name", raw.pyGet "label"]
  let icon_value ← stripOr [raw.pyGet "icon", raw.pyGet "iconName"]
  return { text_raw0 := text_raw0, title_raw := title_raw, subtitle_raw := subtitle_raw,
           badge_raw := badge_raw, name_raw := name_raw, icon_value := icon_value }

/-- The late `asset` (line 1443) and `side` (line 1574) strip chains; in the
source they run only after both early returns, so their `AttributeError`
cannot fire for a skipped highlight. -/
def extract_hl_asset_side (raw : Value) : Except PyError (String × String) := do
  let asset ← stripOr [raw.pyGet "asset", raw.pyGet "media"]
  let side_s ← stripOr [raw.pyGet "side"]
  return (asset, pyLower side_s)

/-- `str(raw.get("id") or f"highlight-{index+1:02d}")`. -/
def hl_id (raw : Value) (index : ℕ) : String :=
  let idv := raw.pyGet "id"
  if idv.truthy then pyStrOfValue idv else "highlight-" ++ pad2 (index + 1)

/-- The `type`/`kind` alias resolution. -/
def hl_type (raw : Value) : Option String :=
  match firstTruthyOrNull [raw.pyGet "type", raw.pyGet "kind"] with
  | .str s =>
      let type_key := removeSpaceDashUnderscore (pyLower (pyStrip s))
      some (((TYPE_MAP.find? (fun p => p.1 == type_key)).map (fun p => p.2)).getD (pyStrip s))
  | _ => none

/-- The `srt_lookup` match on `srt-<N>` ids (later entries shadow earlier
ones, as in the Python dict comprehension). -/
def hl_srt_entry (srt_entries : List SrtEntry) (highlight_id : String) : Option SrtEntry :=
  if srt_entries.isEmpty then none
  else match parseSrtId (pyLower highlight_id) with
       | some n => (srt_entries.filter (fun e => e.index == (n : ℤ))).getLast?
       | none => none

/-- Start/duration normalization (lines 1322-1343): duration falls back to
`end - start`, then the default, is clamped to `[1.5, 5]`, and an SRT match
overrides both. -/
def hl_timing (raw : Value) (srt_entry : Option SrtEntry) : ℚ × ℚ :=
  let start0 := ensure_float (raw.getD "start" (raw.getD "time" (.num 0))) 0
  let start1 := max 0 start0
  let duration0 := ensure_float (raw.getD "duration" (raw.getD "length" (.num 0)))
    DEFAULT_HIGHLIGHT_DURATION
  let duration1 :=
    if duration0 ≤ 0 then
      let end_time := ensure_float (raw.pyGet "end") 0
      if start1 < end_time then end_time - start1 else duration0
    else duration0
  let duration2 := if duration1 ≤ 0 then DEFAULT_HIGHLIGHT_DURATION else duration1
  let duration3 := max (3/2) (min duration2 5)
  let sd : ℚ × ℚ :=
    match srt_entry with
    | some e =>
        let srt_duration := max 0 (e.endSec - e.startSec)
        if 0 < srt_duration then (e.startSec, max (3/2) (min srt_duration 5))
        else (start1, duration3)
    | none => (start1, duration3)
  (max 0 sd.1, sd.2)

/-- The `position`/`placement` chain; `.lower()` raises on a truthy
non-string. -/
def extract_position (raw : Value) (default_position : String) : Except PyError String :=
  match firstTruthy? [raw.pyGet "position", raw.pyGet "placement"] with
  | none => .ok (pyLower default_position)
  | some (.str s) => .ok (pyLower s)
  | some _ => .error (.attributeError "lower")

/-- The `animation` alias resolution. -/
def hl_animation (raw : Value) (resolved_highlight_type : Option String) : String :=
  let animation_key :=
    match firstTruthy? [raw.pyGet "animation", raw.pyGet "style", raw.pyGet "motion"] with
    | some (.str s) => removeSpaceDashUnderscore (pyLower (pyStrip s))
    | _ => ""
  let animation_default := if resolved_highlight_type == some "icon" then "pop" else "fade"
  (((ANIMATION_MAP.find? (fun p => p.1 == animation_key)).map (fun p => p.2))).getD
    animation_default

/-- The `variant` alias resolution. -/
def hl_variant (raw : Value) : Option String :=
  let variant_raw := firstTruthyOrNull [raw.pyGet "variant", raw.pyGet "styleVariant"]
  if variant_raw.truthy then
    let variant_key := removeSpaceDashUnderscore (pyLower (pyStrip (pyStrOfValue variant_raw)))
    match (VARIANT_MAP.find? (fun p => p.1 == variant_key)).map (fun p => p.2) with
    | some nv => if HIGHLIGHT_VARIANTS.contains nv then some nv else none
    | none => none
  else none

/-- The `sfx` normalization and `assets/` prefixing. -/
def hl_sfx (lookupSfx : List (String × String)) (raw : Value) : Option String :=
  match normalize_sfx_name lookupSfx
    (firstTruthyOrNull [raw.pyGet "sfx", raw.pyGet "asset", raw.pyGet "sound"]) with
  | none => none
  | some sn =>
      some (if (pyLower sn).startsWith "assets/" then sn
            else if (pyLower sn).startsWith "sfx/" then "assets/" ++ sn
            else "assets/sfx/" ++ sn)

/-- A colour field: kept when it is a string with non-empty strip. -/
def hl_color (v : Value) : Option String :=
  match v with
  | .str s => if (pyStrip s).isEmpty then none else some (pyStrip s)
  | _ => none

/-- Supporting-text normalization from the three alternate raw shapes. -/
def hl_supporting (raw : Value) : Option String × Option String :=
  let lr0 : Option String × Option String :=
    match raw.pyGet "supportingTexts" with
    | .obj fs =>
        let rs := Value.obj fs
        (coerceSupporting (firstTruthy? [rs.pyGet "topLeft", rs.pyGet "top_left",
            rs.pyGet "left", rs.pyGet "primary"]),
         coerceSupporting (firstTruthy? [rs.pyGet "topRight", rs.pyGet "top_right",
            rs.pyGet "right", rs.pyGet "secondary"]))
    | _ => (none, none)
  let lr1 : Option String × Option String :=
    if lr0.1.isNone && lr0.2.isNone then
      match raw.get? "items" with
      | some (.arr items) =>
          ((items.get? 0).bind (fun v => coerceSupporting (some v)),
           (items.get? 1).bind (fun v => coerceSupporting (some v)))
      | _ => (none, none)
    else lr0
  let left_text := coerceSupporting (firstTruthy? [raw.pyGet "supportingLeft",
    raw.pyGet "supportLeft", raw.pyGet "supporting", raw.pyGet "keywordSecondary",
    raw.pyGet "left"])
  let right_text := coerceSupporting (firstTruthy? [raw.pyGet "supportingRight",
    raw.pyGet "supportRight", raw.pyGet "right"])
  (if lr1.1.isSome then lr1.1 else left_text,
   if lr1.2.isSome then lr1.2 else right_text)

/-- `layout` resolution (explicit value, else derived from sides). -/
def hl_layout (raw : Value) (supportingLeft supportingRight : Option String)
    (is_icon_highlight : Bool) (sanitized_text : String) : Option String :=
  let layout_value0 : Option String :=
    match firstTruthyOrNull [raw.pyGet "layout", raw.pyGet "arrangement",
      raw.pyGet "alignment"] with
    | .str s =>
        let lc := pyLower (pyStrip s)
        if ["left", "right", "dual", "bottom"].contains lc then some lc
        else if ["pair", "split"].contains lc then some "dual"
        else none
    | _ => none
  if layout_value0.isSome then layout_value0
  else if supportingLeft.isSome && supportingRight.isSome then some "dual"
  else if supportingLeft.isSome then some "left"
  else if supportingRight.isSome then some "right"
  else if !is_icon_highlight && !sanitized_text.isEmpty then some "bottom"
  else none

/-- The stagger defaults written when supporting texts are present. -/
def hl_staggers (raw : Value) (supportingLeft supportingRight : Option String) :
    Option ℚ × Option ℚ :=
  (if supportingLeft.isSome || supportingRight.isSome then some 0 else none,
   if (supportingLeft.isSome || supportingRight.isSome) && supportingRight.isSome then
     let v := ensure_float (raw.pyGet "staggerRight") 2
     some (if v == 0 then 2 else v)
   else none)

/-- `radius` (kept when positive). -/
def hl_radius (raw : Value) : Option ℚ :=
  match raw.get? "radius" with
  | some .null => none
  | some v =>
      (match tryFloat v with
       | some r => if 0 < r then some (round3 r) else none
       | none => none)
  | none => none

/-- `volume` (clamped to `[0, 1]`). -/
def hl_volume (raw : Value) : Option ℚ :=
  match raw.get? "volume" with
  | some .null => none
  | some v =>
      (match tryFloat v with
       | some r => some (round3 (max 0 (min r 1)))
       | none => none)
  | none => none

/-- The base phrase of the `sectionTitle` branch
(`title_raw or text_raw or keyword_text or sanitized_text or srt_text`). -/
def hl_section_base (s : RawHlStrings) (text_raw keyword_text sanitized_text srt_text : String) :
    String :=
  (pyOrOpt (pyOrOpt (pyOrOpt (pyOrOpt
    (some s.title_raw) (some text_raw)) (some keyword_text)) (some sanitized_text))
    (some srt_text)).getD ""

/-- The pure tail of `normalize_highlight_item`, after the fallible string
extractions succeeded. -/
def build_highlight_skip (raw : Value) (s : RawHlStrings) (srt_entry : Option SrtEntry)
    (resolved_highlight_type : Option String) : Bool :=
  let srt_text := match srt_entry with
    | some e => pyStrip e.text_one_line
    | none => ""
  let text_raw := if s.text_raw0.isEmpty && !srt_text.isEmpty then srt_text else s.text_raw0
  let is_icon_highlight := resolved_highlight_type == some "icon"
  let keyword_text := match raw.get? "keyword" with
    | some (.str kw) => pyStrip kw
    | _ => ""
  let sanitized_text :=
    if is_icon_highlight then ""
    else firstNonEmptySanitized sanitize_highlight_text
      [text_raw, srt_text, keyword_text, s.title_raw, s.subtitle_raw]
  let assigned_type0 : Option String :=
    if truthyOpt resolved_highlight_type then resolved_highlight_type
    else if is_icon_highlight then some "icon" else none
  let assigned_type : Option String :=
    if truthyOpt assigned_type0 then assigned_type0
    else if !sanitized_text.isEmpty then some "noteBox"
    else if !text_raw.isEmpty then some "noteBox"
    else assigned_type0
  assigned_type == some "noteBox" && sanitized_text.isEmpty

/-- The highlight record built on the non-skipped path (the body of the
`return` at the end of `normalize_highlight_item`). -/
def build_highlight_record (lookupSfx : List (String × String)) (raw : Value)
    (highlight_id : String) (s : RawHlStrings) (srt_entry : Option SrtEntry)
    (resolved_highlight_type : Option String) (position0 : String)
    (asset side : String) : NHighlight :=
  let srt_text := match srt_entry with
    | some e => pyStrip e.text_one_line
    | none => ""
  let text_raw := if s.text_raw0.isEmpty && !srt_text.isEmpty then srt_text else s.text_raw0
  let timing := hl_timing raw srt_entry
  let is_icon_highlight := resolved_highlight_type == some "icon"
  let default_position := if is_icon_highlight then "center" else "bottom"
  let position :=
    if !HIGHLIGHT_POSITIONS.contains position0 || !is_icon_highlight then default_position
    else position0
  let keyword_text := match raw.get? "keyword" with
    | some (.str kw) => pyStrip kw
    | _ => ""
  let sanitized_text :=
    if is_icon_highlight then ""
    else firstNonEmptySanitized sanitize_highlight_text
      [text_raw, srt_text, keyword_text, s.title_raw, s.subtitle_raw]
  let assigned_type0 : Option String :=
    if truthyOpt resolved_highlight_type then resolved_highlight_type
    else if is_icon_highlight then some "icon" else none
  let assigned_type : Option String :=
    if truthyOpt assigned_type0 then assigned_type0
    else if !sanitized_text.isEmpty then some "noteBox"
    else if !text_raw.isEmpty then some "noteBox"
    else assigned_type0
  let section_pair :=
      format_section_title highlight_id (hl_section_base s text_raw keyword_text sanitized_text srt_text)
  let supporting := hl_supporting raw
  let layout_value := hl_layout raw supporting.1 supporting.2 is_icon_highlight sanitized_text
  let staggers := hl_staggers raw supporting.1 supporting.2
  {     id := highlight_id
        start := round3 timing.1
        duration := round3 timing.2
        position := position
        animation := hl_animation raw resolved_highlight_type
        type := if truthyOpt assigned_type then assigned_type else none
        text :=
          if assigned_type == some "noteBox" then some sanitized_text
          else if assigned_type == some "sectionTitle" then some section_pair.1
          else if assigned_type == some "icon" && !text_raw.isEmpty then some text_raw
          else none
        keyword :=
          if assigned_type == some "noteBox" then some sanitized_text
          else if assigned_type == some "sectionTitle" then some section_pair.2
          else none
        importance :=
          if assigned_type == some "noteBox" then
            match raw.get? "importance" with
            | some (.str imp) =>
                if (pyStrip imp).isEmpty then some "primary" else some (pyLower (pyStrip imp))
            | _ => some "primary"
          else none
        showBottom :=
          (assigned_type == some "noteBox") ||
          (match layout_value with
           | some l => ["left", "right", "dual"].contains l && !sanitized_text.isEmpty
           | none => false)
        safeBottom := if assigned_type == some "noteBox" then some (9/50) else none
        safeInsetHorizontal := if assigned_type == some "noteBox" then some (2/25) else none
        title := if s.title_raw.isEmpty then none else some s.title_raw
        subtitle := if s.subtitle_raw.isEmpty then none else some s.subtitle_raw
        badge := if s.badge_raw.isEmpty then none else some s.badge_raw
        name := if s.name_raw.isEmpty then none else some s.name_raw
        icon := if s.icon_value.isEmpty then none else some s.icon_value
        asset := if asset.isEmpty then none else some asset
        variant := hl_variant raw
        sfx := hl_sfx lookupSfx raw
        accentColor := hl_color (firstTruthyOrNull [raw.pyGet "accentColor", raw.pyGet "accent"])
        backgroundColor := hl_color (firstTruthyOrNull
          [raw.pyGet "backgroundColor", raw.pyGet "background", raw.pyGet "bg"])
        iconColor := hl_color (firstTruthyOrNull [raw.pyGet "iconColor", raw.pyGet "iconColour"])
        supportingLeft := supporting.1
        supportingRight := supporting.2
        layout := layout_value
        side := if ["top", "bottom", "left", "right"].contains side then some side else none
        staggerLeft := staggers.1
        staggerRight := staggers.2
        radius := hl_radius raw
        volume := hl_volume raw }

/-- The tail of `normalize_highlight_item`: skip a text highlight whose
sanitized text is empty, otherwise build the record. -/
def build_highlight (lookupSfx : List (String × String)) (raw : Value)
    (highlight_id : String) (s : RawHlStrings) (srt_entry : Option SrtEntry)
    (resolved_highlight_type : Option String) (position0 : String)
    (asset side : String) : Option NHighlight :=
  if build_highlight_skip raw s srt_entry resolved_highlight_type then none
  else some (build_highlight_record lookupSfx raw highlight_id s srt_entry
    resolved_highlight_type position0 asset side)

/-- `normalize_highlight_item`.  `lookupSfx` stands for the module-level
`SFX_LOOKUP` (built from the filesystem); `srt_entries` for the values of
the `srt_lookup` dict (an empty list is the falsy empty dict). -/
def normalize_highlight_item (lookupSfx : List (String × String))
    (srt_entries : List SrtEntry) (raw : Value) (index : ℕ) :
    Except PyError (Option NHighlight) := do
  match raw with
  | .obj _ => do
    let highlight_id := hl_id raw index
    let highlight_type := hl_type raw
    let s ← extract_hl_strings raw
    let srt_entry := hl_srt_entry srt_entries highlight_id
    let srt_text := match srt_entry with
      | some e => pyStrip e.text_one_line
      | none => ""
    let has_icon_marker :=
      !s.icon_value.isEmpty || (!s.name_raw.isEmpty && !truthyOpt highlight_type)
    let resolved_highlight_type : Option String :=
      if truthyOpt highlight_type then highlight_type
      else if has_icon_marker then some "icon" else none
    if s.text_raw0.isEmpty && s.title_raw.isEmpty && s.subtitle_raw.isEmpty &&
        s.badge_raw.isEmpty && s.name_raw.isEmpty && s.icon_value.isEmpty &&
        srt_text.isEmpty then
      return none
    let is_icon_highlight := resolved_highlight_type == some "icon"
    let default_position := if is_icon_highlight then "center" else "bottom"
    let position0 ← extract_position raw default_position
    if build_highlight_skip raw s srt_entry resolved_highlight_type then
      return none
    let as2 ← extract_hl_asset_side raw
    return build_highlight lookupSfx raw highlight_id s srt_entry resolved_highlight_type
      position0 as2.1 as2.2
  | _ => return none

/-- A normalized segment as built by `normalize_plan`. -/
structure NSegment where
  id : String
  sourceStart : ℚ
  duration : ℚ
  label : Option String
  title : Option String
  silenceAfter : Bool
  gapAfter : Option Bool
  playbackRate : Option ℚ
  transitionIn : Option Transition
  transitionOut : Option Transition
  cameraMovement : Option String
  metadata : Option Value

/-- A normalized plan. -/
structure NPlan where
  segments : List NSegment
  highlights : List NHighlight
  meta : Option Value

/-- The segment duration computation of `normalize_plan` (duration, then
`end - start`, then `length`). -/
def segDuration (rawSeg : Value) (source_start : ℚ) : ℚ :=
  let d0 := ensure_float (rawSeg.pyGet "duration") 0
  let d1 :=
    if d0 ≤ 0 then
      let end_value := ensure_float (rawSeg.pyGet "end") 0
      let start_value := match rawSeg.get? "start" with
        | some v => ensure_float v 0
        | none => source_start
      if start_value < end_value then end_value - start_value else d0
    else d0
  if d1 ≤ 0 then
    let length_value := ensure_float (rawSeg.pyGet "length") 0
    if 0 < length_value then length_value else d1
  else d1

/-- The spec's segment-duration rule, stated in its own words: "compute
`duration` from any of `duration`/`(end-start)`/`length`, using the first
positive value found, in that priority order" (spec §4.2), where `start`
falls back to the segment's source start when absent. -/
def spec_segment_duration (rawSeg : Value) (source_start : ℚ) : Option ℚ :=
  let start_value := match rawSeg.get? "start" with
    | some v => ensure_float v 0
    | none => source_start
  [ensure_float (rawSeg.pyGet "duration") 0,
   ensure_float (rawSeg.pyGet "end") 0 - start_value,
   ensure_float (rawSeg.pyGet "length") 0].find? (fun q => decide (0 < q))

/-- First present key of a raw dict among `keys`. -/
def firstKeyValue (v : Value) : List String → Option Value
  | [] => none
  | k :: ks => match v.get? k with
               | some x => some x
               | none => firstKeyValue v ks

/-- The raw source start of a segment
(`ensure_float(raw.get("sourceStart", raw.get("start", 0.0)))`). -/
def seg_source_start (rawSeg : Value) : ℚ :=
  ensure_float (rawSeg.getD "sourceStart" (rawSeg.getD "start" (.num 0))) 0

/-- The pure tail of the per-segment body of `normalize_plan`, after the
fallible `(label or title).strip()` and transition extractions succeeded. -/
def build_nsegment (rawSeg : Value) (index : ℕ) (source_start duration : ℚ)
    (label : String) (tin tout : Option Transition) : ℚ × NSegment :=
  let idv := rawSeg.pyGet "id"
  let sid := if idv.truthy then pyStrOfValue idv else "segment-" ++ pad2 (index + 1)
  let titleField : Option String :=
    match rawSeg.get? "title" with
    | some (.str s) => if (pyStrip s).isEmpty then none else some (pyStrip s)
    | _ => none
  let silenceAfter :=
    match firstKeyValue rawSeg ["silenceAfter", "silence_after"] with
    | some .null => false
    | some v => ensure_bool v false
    | none => false
  let gapAfter : Option Bool :=
    match firstKeyValue rawSeg ["gapAfter", "gap_after"] with
    | some .null => none
    | some v => some (ensure_bool v false)
    | none => none
  let playback_raw : Option Value :=
    match rawSeg.get? "playbackRate" with
    | some v => some v
    | none => rawSeg.get? "speed"
  let playbackRate : Option ℚ :=
    match playback_raw with
    | none => none
    | some .null => none
    | some v =>
        let r0 := ensure_float v 1
        let r := if r0 ≤ 0 then 1 else r0
        if 1/1000 < |r - 1| then some (round3 r) else none
  let metadata_raw := rawSeg.get? "metadata"
  let metadata_camera : Value :=
    match metadata_raw with
    | some (.obj fs) => (Value.obj fs).pyGet "cameraMovement"
    | _ => .null
  let camera := normalize_camera_movement (firstTruthyOrNull
    [rawSeg.pyGet "cameraMovement", rawSeg.pyGet "camera_movement", metadata_camera])
  let metadataField : Option Value :=
    match metadata_raw with
    | some (.obj fs) => if fs.isEmpty then none else some (.obj fs)
    | _ => none
  let timeline_start :=
    ensure_float ((firstKeyValue rawSeg ["timelineStart", "timeline_start"]).getD .null)
      source_start
  (timeline_start,
    { id := sid
      sourceStart := round3 source_start
      duration := round3 duration
      label := if label.isEmpty then none else some label
      title := titleField
      silenceAfter := silenceAfter
      gapAfter := gapAfter
      playbackRate := playbackRate
      transitionIn := tin
      transitionOut := tout
      cameraMovement := camera
      metadata := metadataField })

/-- The per-raw-segment body of `normalize_plan`; returns the
`(timeline_start, segment)` pair, or `none` when the segment is discarded. -/
def normalize_segment (rawSeg : Value) (index : ℕ) :
    Except PyError (Option (ℚ × NSegment)) := do
  match rawSeg with
  | .obj _ => do
    let source_start := seg_source_start rawSeg
    let duration := segDuration rawSeg source_start
    if duration ≤ 0 then
      return none
    let label ← stripOr [rawSeg.pyGet "label", rawSeg.pyGet "title"]
    let tin ← normalize_transition (firstTruthyOrNull
      [rawSeg.pyGet "transitionIn", rawSeg.pyGet "transition_in", rawSeg.pyGet "enterTransition"])
    let tout ← normalize_transition (firstTruthyOrNull
      [rawSeg.pyGet "transitionOut", rawSeg.pyGet "transition_out", rawSeg.pyGet "exitTransition"])
    return some (build_nsegment rawSeg index source_start duration label tin tout)
  | _ => return none

/-- The segment loop of `normalize_plan`. -/
def normalize_segments (rawSegments : List Value) :
    Except PyError (List (ℚ × NSegment)) :=
  rawSegments.enum.foldlM (fun acc p => do
    match ← normalize_segment p.2 p.1 with
    | some item => pure (acc ++ [item])
    | none => pure acc) []

/-- The legacy `actions` filter of `normalize_plan`. -/
def collect_actions : List Value → Except PyError (List Value)
  | [] => .ok []
  | a :: rest =>
      match a with
      | .obj _ => do
          let t ← lowerOr [a.pyGet "type", a.pyGet "kind"]
          let tail ← collect_actions rest
          .ok (if ["caption", "highlight", "icon", "notebox", "typewriter",
                   "section", "sectiontitle"].contains t then a :: tail else tail)
      | _ => collect_actions rest

/-- The highlight loop of `normalize_plan`, stopping at `MAX_HIGHLIGHTS`. -/
def normalize_highlights_loop (lookupSfx : List (String × String))
    (srt_entries : List SrtEntry) :
    List (ℕ × Value) → List NHighlight → Except PyError (List NHighlight)
  | [], acc => .ok acc
  | (idx, raw) :: rest, acc => do
      let n ← normalize_highlight_item lookupSfx srt_entries raw idx
      let acc2 := match n with
        | some h => acc ++ [h]
        | none => acc
      if MAX_HIGHLIGHTS ≤ acc2.length then .ok acc2
      else normalize_highlights_loop lookupSfx srt_entries rest acc2

/-- `normalize_plan`. -/
def normalize_plan (lookupSfx : List (String × String)) (srt_entries : List SrtEntry)
    (plan : Value) : Except PyError NPlan := do
  match plan with
  | .obj _ => do
    let rawSegments := match plan.get? "segments" with
      | some (.arr l) => l
      | _ => []
    let segItems0 ← normalize_segments rawSegments
    let segItems := sortByKey (fun (it : ℚ × NSegment) => toLex (it.1, it.2.sourceStart)) segItems0
    let raw_highlights ← (match plan.get? "highlights" with
      | some (.arr l) => Except.ok l
      | _ =>
          match plan.get? "actions" with
          | some (.arr l) => collect_actions l
          | _ => Except.ok [])
    let normalized_highlights ← normalize_highlights_loop lookupSfx srt_entries
      raw_highlights.enum []
    return { segments := segItems.map (fun it => it.2)
             highlights := sortByKey (fun (h : NHighlight) => h.start) normalized_highlights
             meta := plan.get? "meta" }
  | _ => .error (.valueError "Plan must be a JSON object.")

/-- Optional string as a JSON value (a key the normalizer did not write is
re-serialized as an explicit `null`; every read the normalizer performs
treats a `null` value and a missing key alike, so this is observationally
the same raw dict). -/
def optStrV : Option String → Value
  | some s => .str s
  | none => .null

/-- Optional number as a JSON value (same convention as `optStrV`). -/
def optNumV : Option ℚ → Value
  | some q => .num q
  | none => .null

/-- Optional boolean as a JSON value (same convention as `optStrV`). -/
def optBoolV : Option Bool → Value
  | some b => .bool b
  | none => .null

/-- A normalized transition as a raw JSON value. -/
def Transition.toValue (t : Transition) : Value :=
  .obj [("type", .str t.type), ("duration", optNumV t.duration),
        ("direction", optStrV t.direction), ("intensity", optNumV t.intensity)]

/-- A normalized segment as a raw JSON value (feeding the normalizer its own
output). -/
def NSegment.toValue (seg : NSegment) : Value :=
  .obj [("id", .str seg.id), ("sourceStart", .num seg.sourceStart),
        ("duration", .num seg.duration), ("label", optStrV seg.label),
        ("title", optStrV seg.title), ("silenceAfter", .bool seg.silenceAfter),
        ("gapAfter", optBoolV seg.gapAfter),
        ("playbackRate", optNumV seg.playbackRate),
        ("transitionIn", match seg.transitionIn with
                         | some t => t.toValue
                         | none => .null),
        ("transitionOut", match seg.transitionOut with
                          | some t => t.toValue
                          | none => .null),
        ("cameraMovement", optStrV seg.cameraMovement),
        ("metadata", seg.metadata.getD .null)]

/-- A normalized highlight as a raw JSON value. -/
def NHighlight.toValue (h : NHighlight) : Value :=
  .obj [("id", .str h.id), ("start", .num h.start), ("duration", .num h.duration),
        ("position", .str h.position), ("animation", .str h.animation),
        ("type", optStrV h.type), ("text", optStrV h.text),
        ("keyword", optStrV h.keyword), ("importance", optStrV h.importance),
        ("showBottom", .bool h.showBottom), ("safeBottom", optNumV h.safeBottom),
        ("safeInsetHorizontal", optNumV h.safeInsetHorizontal),
        ("title", optStrV h.title), ("subtitle", optStrV h.subtitle),
        ("badge", optStrV h.badge), ("name", optStrV h.name),
        ("icon", optStrV h.icon), ("asset", optStrV h.asset),
        ("variant", optStrV h.variant), ("sfx", optStrV h.sfx),
        ("accentColor", optStrV h.accentColor),
        ("backgroundColor", optStrV h.backgroundColor),
        ("iconColor", optStrV h.iconColor),
        ("supportingTexts",
          if h.supportingLeft.isSome || h.supportingRight.isSome then
            .obj [("topLeft", optStrV h.supportingLeft),
                  ("topRight", optStrV h.supportingRight)]
          else .null),
        ("layout", optStrV h.layout), ("side", optStrV h.side),
        ("staggerLeft", optNumV h.staggerLeft),
        ("staggerRight", optNumV h.staggerRight),
        ("radius", optNumV h.radius), ("volume", optNumV h.volume)]

/-- A normalized plan as a raw JSON value. -/
def NPlan.toValue (p : NPlan) : Value :=
  .obj ([("segments", .arr (p.segments.map NSegment.toValue)),
         ("highlights", .arr (p.highlights.map NHighlight.toValue))] ++
        (match p.meta with
         | some m => [("meta", m)]
         | none => []))

end MakePlan

/-! ## Embedding of `python-be/plan_generation/enrich_plan.py` -/

namespace EnrichPlan

/-- The `metadata` dict of a highlight: either a dict (with its optional
`audio` entry) or a non-dict value. -/
inductive HlMeta where
  | dict (audio : Option String)
  | other
deriving DecidableEq

/-- A `broll` assignment written onto a segment. -/
structure Broll where
  id : Option String
  file : Option String
  mode : Option String
  confidence : Option ℚ
  reasons : List String
  duration : Option ℚ
deriving DecidableEq

/-- A highlight dict as seen by the enrichment passes.  `none` models a
missing key; a present key whose value has the wrong runtime type is also
modelled as `none` (each such read in the source is `isinstance`-guarded).
`supportingTexts` keeps only the dict's values, in insertion order (the
code only ever calls `.values()` on it). -/
structure Highlight where
  id : Option String
  type : Option String
  start : Option ℚ
  duration : Option ℚ
  importance : Option String
  text : Option String
  keyword : Option String
  title : Option String
  animation : Option String
  supportingTexts : Option (List String)
  sfx : Option String
  gain : Option ℚ
  ducking : Option ℚ
  metadata : Option HlMeta
deriving DecidableEq

/-- A segment dict as seen by the enrichment passes.  `none` models a
missing key (which the passes replace by their defaults, e.g. `0.0` timing
in the trimming pass); a present value of the wrong runtime type is not
representable here, because the passes treat it differently from a missing
key (the trimming pass skips such a segment entirely). -/
structure Segment where
  id : Option String
  sourceStart : Option ℚ
  duration : Option ℚ
  label : Option String
  title : Option String
  kind : Option String
  broll : Option Broll
  motionCue : Option String
  notes : List String
  sfxHints : Option (List String)
deriving DecidableEq

/-- A plan flowing through the enrichment passes (`meta` is not modelled:
no claim inspects it). -/
structure Plan where
  segments : List Segment
  highlights : List Highlight
deriving DecidableEq

/-- `(x.get("type") or "").lower() == "sectiontitle"`. -/
def isSectionType (h : Highlight) : Bool :=
  pyLower (h.type.getD "") == "sectiontitle"

/-- `MAX_TOTAL_HIGHLIGHTS`. -/
def MAX_TOTAL_HIGHLIGHTS : ℕ := 20

/-- The inner `while filtered:` loop of `enforce_highlight_spacing`, acting
on the accepted list in reverse order (head = last accepted).  Each arm
mirrors one `break`/`continue` of the source. -/
def spacing_resolve (min_gap min_duration : ℚ) (start dur : ℚ)
    (current_is_section : Bool) : List Highlight → List Highlight
  | [] => []
  | previous :: rest =>
      let prev_start := previous.start.getD 0
      let prev_duration := max min_duration (previous.duration.getD min_duration)
      let prev_end := prev_start + prev_duration
      if prev_end + min_gap ≤ start then previous :: rest
      else
        let available := start - min_gap - prev_start
        let previous_is_section := isSectionType previous
        if min_duration ≤ available then
          { previous with duration := some (round2 available) } :: rest
        else if current_is_section && !previous_is_section then
          spacing_resolve min_gap min_duration start dur current_is_section rest
        else if !current_is_section && previous_is_section then
          previous :: rest
        else if (2/5 : ℚ) < available then
          { previous with duration := some (round2 (max min_duration available)) } :: rest
        else if prev_duration < dur then
          spacing_resolve min_gap min_duration start dur current_is_section rest
        else
          previous :: rest

/-- One iteration of the `for current in ordered:` loop of
`enforce_highlight_spacing` (skip non-numeric timing, resolve against the
last accepted highlights, re-check the gap, then append with rounded
timing). -/
def spacing_step (min_gap min_duration : ℚ) (acc : List Highlight)
    (current : Highlight) : List Highlight :=
  match current.start, current.duration with
  | some s, some d =>
      let dur := max min_duration d
      let acc2 := spacing_resolve min_gap min_duration s dur (isSectionType current) acc
      let keep : Bool :=
        match acc2 with
        | [] => true
        | prev_last :: _ =>
            let prev_end := prev_last.start.getD 0 + prev_last.duration.getD min_duration
            !(s < prev_end + min_gap)
      if keep then
        { current with start := some (round2 s), duration := some (round2 dur) } :: acc2
      else acc2
  | _, _ => acc

/-- `enforce_highlight_spacing` (the call sites use the defaults
`min_gap=0.2`, `min_duration=0.6`). -/
def enforce_highlight_spacing (min_gap min_duration : ℚ) (p : Plan) : Plan :=
  if p.highlights.isEmpty then p
  else
    let ordered := sortByKey (fun (h : Highlight) => h.start.getD 0) p.highlights
    { p with highlights := (ordered.foldl (spacing_step min_gap min_duration) []).reverse }

/-- `_ALLOWED_CONNECTORS` (enrich_plan, uppercase). -/
def ENRICH_ALLOWED_CONNECTORS : List String :=
  ["OF", "FOR", "AND", "&", "IN", "ON", "VS", "VERSUS", "TO", "WITH"]

/-- `_COMMON_VERB_TOKENS_LOWER` (enrich_plan). -/
def ENRICH_COMMON_VERB_TOKENS : List String :=
  ["be", "am", "is", "are", "was", "were", "being", "been", "do", "does",
   "did", "doing", "have", "has", "had", "having", "make", "makes", "making",
   "made", "watch", "watches", "watching", "interact", "interacts",
   "interacting", "discuss", "discusses", "discussing", "explain", "explains",
   "explaining", "stand", "stands", "standing", "tell", "tells", "telling",
   "catch", "catches", "catching", "let", "lets", "letting", "take", "takes",
   "taking", "know", "knows", "knowing", "think", "thinks", "thinking",
   "feel", "feels", "feeling", "see", "sees", "seeing", "talk", "talks",
   "talking", "say", "says", "saying", "look", "looks", "looking", "get",
   "gets", "getting", "give", "gives", "giving", "keep", "keeps", "keeping",
   "want", "wants", "wanting", "need", "needs", "needing", "allow", "allows",
   "allowing", "may", "might", "should", "could", "would", "will", "can",
   "now", "today", "tonight", "already", "maybe", "just"]

/-- `score_highlight` inside `prune_highlights`. -/
def score_highlight (item : Highlight) : ℚ :=
  let h_type := pyLower (item.type.getD "")
  let base : ℚ :=
    (if h_type == "sectiontitle" then 120
     else if h_type == "icon" then 40
     else if h_type == "cta" then 80 else 0) +
    (if pyLower (item.importance.getD "") == "primary" then 12 else 0)
  let text := orStr item.keyword item.text
  let tokens := alnumTokens text
  if tokens.isEmpty then base - 25
  else
    let content_tokens := tokens.filter
      (fun t => !ENRICH_ALLOWED_CONNECTORS.contains (pyUpper t))
    let noun_like := (content_tokens.filter
      (fun t => !ENRICH_COMMON_VERB_TOKENS.contains (pyLower t))).length
    let base := base + min ((noun_like : ℚ) * 4) 20
    let base := base + (if text.toList.any Char.isDigit then 10 else 0)
    let base := base + min (item.duration.getD 0) 5
    let base := base + max 0 (8 - (item.start.getD 0) * (1/20))
    if 2 ≤ content_tokens.length then base + 10
    else
      match content_tokens with
      | [t] => if 6 ≤ t.length then base + 2 else base - 12
      | _ => base

/-- `prune_highlights` (the call site uses `max_total=MAX_TOTAL_HIGHLIGHTS`). -/
def prune_highlights (max_total : ℕ) (p : Plan) : Plan :=
  if p.highlights.isEmpty || p.highlights.length ≤ max_total then p
  else
    let scored := p.highlights.enum.map
      (fun e => (score_highlight e.2, e.2.start.getD 0, e.1, e.2))
    let sorted := sortByKey
      (fun (e : ℚ × ℚ × ℕ × Highlight) => toLex (-e.1, toLex (e.2.1, e.2.2.1))) scored
    let retained := (sorted.take max_total).map (fun e => e.2.2.2.id)
    let kept := p.highlights.filter (fun item => retained.contains item.id)
    { p with highlights := sortByKey (fun (h : Highlight) => h.start.getD 0) kept }

/-- The `latest_end` accumulation of `trim_highlights_to_segments`:
starting from 0, the maximum of `sourceStart + max(0, duration)` over the
segments. -/
def segments_latest_end (segs : List Segment) : ℚ :=
  segs.foldl
    (fun acc seg => max acc ((seg.sourceStart.getD 0) + max 0 (seg.duration.getD 0))) 0

/-- `trim_highlights_to_segments` (the call site uses `margin=0.25`).
In the source a missing `sourceStart`/`duration` key defaults to `0.0` and
the segment is counted; only a segment whose present timing value fails
`float()` is skipped, and such segments are outside this model (see
`Segment`). -/
def trim_highlights_to_segments (margin : ℚ) (p : Plan) : Plan :=
  if p.segments.isEmpty || p.highlights.isEmpty then p
  else
    let cutoff := segments_latest_end p.segments + margin
    let trimmed := p.highlights.filter
      (fun h => match h.start with
                | some s => decide (s ≤ cutoff)
                | none => false)
    { p with highlights := sortByKey (fun (h : Highlight) => h.start.getD 0) trimmed }

/-! ### B-roll keyword rules and catalogs -/

/-- A B-roll catalog item. -/
structure CatalogItem where
  id : Option String
  file : Option String
  topics : List String
  keywords : List String
  mood : List String
  mediaType : Option String
  orientation : Option String
  duration : Option ℚ
  durationHintSeconds : Option ℚ
deriving DecidableEq

/-- The B-roll catalog (`items`). -/
structure BrollCatalog where
  items : List CatalogItem
deriving DecidableEq

/-- An SFX catalog item as read by `ensure_highlight_sfx` (flat `items`). -/
structure SfxItem where
  id : Option String
  file : Option String
deriving DecidableEq

/-- The SFX catalog's flat `items` list. -/
structure SfxCatalog where
  items : List SfxItem
deriving DecidableEq

/-- Motion rules (`motion_rules.json`); callers pass `none` for a missing
or empty (falsy) rules dict. -/
structure MotionRules where
  motion_frequency : Option ℚ
  highlight_rate : Option ℚ
  zoom_out_keywords : List String
deriving DecidableEq

def MAX_BROLL_REUSE : ℕ := 2

def DEFAULT_BROLL_DURATION : ℚ := 6

/-- `BROLL_RULES`. -/
def BROLL_RULES : List (List String × String) :=
  [(["digital marketing", "marketing", "online marketing"], "creative_brainstorm"),
   (["strategy", "tactics", "plan", "framework"], "presentation_speaker"),
   (["seo", "search engine optimization"], "data_analysis"),
   (["social media", "facebook", "instagram", "linkedin"], "remote_call"),
   (["ppc", "paid ads", "google ads"], "data_analysis"),
   (["email marketing", "email campaigns"], "typing_laptop"),
   (["web optimization", "website", "landing page"], "coding_screen"),
   (["audience", "segmentation", "target", "customer"], "teamwork_meeting"),
   (["learning", "education", "course", "training"], "training_workshop"),
   (["caffeine", "coffee", "cup of coffee"], "typing_laptop"),
   (["career", "job", "growth", "specialise"], "office_motion"),
   (["credibility", "authority", "expert"], "presentation_speaker"),
   (["data", "analytics", "metrics", "insights"], "data_analysis"),
   (["content", "blog", "video", "post"], "creative_brainstorm"),
   (["organic", "paid", "promotion"], "data_analysis"),
   (["brand awareness", "direct response"], "presentation_speaker"),
   (["products", "services"], "office_motion"),
   (["b2b", "b2c", "business to business", "business to consumer"], "teamwork_meeting"),
   (["loyal", "loyalty", "loyal clients"], "handshake_success"),
   (["sweet", "honest", "heartwarming"], "celebration_success"),
   (["favorite memory", "favourite memory", "memory", "family", "grandkids"], "celebration_success"),
   (["high school", "sweetheart", "sweethearts"], "training_workshop"),
   (["clientele", "clients", "client"], "teamwork_meeting"),
   (["partnership", "still with", "day one"], "office_motion"),
   (["relationship", "relationships", "friendships"], "startup_team"),
   (["consistency", "consistent"], "office_motion"),
   (["mail room", "mailroom"], "office_motion"),
   (["industry", "business owner", "company"], "startup_team"),
   (["personality", "psychology", "traits", "introvert", "extrovert"], "training_workshop"),
   (["mind", "brain", "thought", "thinking"], "digital_brain"),
   (["people", "audience", "social", "crowd", "group"], "teamwork_meeting")]

/-- `BROLL_NOTES`. -/
def BROLL_NOTES : List (String × String) :=
  [("handshake_success", "B-roll: handshake_success underscores loyalty anecdote."),
   ("celebration_success", "B-roll: celebration_success adds warmth during character description."),
   ("training_workshop", "B-roll: training_workshop illustrates the high-school group setup."),
   ("teamwork_meeting", "B-roll: teamwork_meeting spotlights established clientele."),
   ("presentation_speaker", "B-roll: presentation_speaker fits the talk-style explanation."),
   ("creative_brainstorm", "B-roll: creative_brainstorm adds energetic collaboration context."),
   ("data_analysis", "B-roll: data_analysis visualises metric-heavy commentary."),
   ("remote_call", "B-roll: remote_call reinforces digital social interaction."),
   ("typing_laptop", "B-roll: typing_laptop underscores analytical focus."),
   ("coding_screen", "B-roll: coding_screen mirrors technical optimisation themes."),
   ("digital_brain", "B-roll: digital_brain supports references to cognitive science."),
   ("startup_team", "B-roll: startup_team reinforces loyal friendships with clients."),
   ("office_motion", "B-roll: office_motion underscores consistent client relationships.")]

/-- `BROLL_REASONS`. -/
def BROLL_REASONS : List (String × List String) :=
  [("handshake_success", ["Handshake moment reinforces loyalty description."]),
   ("celebration_success", ["Celebration visual supports the heartfelt moment."]),
   ("training_workshop", ["Group setting mirrors the meeting story energy."]),
   ("teamwork_meeting", ["Team huddle echoes long-term client relationships."]),
   ("presentation_speaker", ["Stage speaker visual reinforces the narrated insight."]),
   ("creative_brainstorm", ["Creative session footage keeps the discussion lively."]),
   ("data_analysis", ["Analytics dashboard imagery matches the metric-focused commentary."]),
   ("remote_call", ["Video call vignette highlights social/audience engagement."]),
   ("typing_laptop", ["Typing closeup mirrors detailed analytical thinking."]),
   ("coding_screen", ["Code view emphasises technical problem solving."]),
   ("digital_brain", ["Digital brain animation echoes cognitive references in the script."]),
   ("startup_team", ["Collaborative workspace visualises loyal friendships with clients."]),
   ("office_motion", ["Office walkthrough mirrors consistent client presence."])]

/-- `MOTION_ZOOM_IN_KEYWORDS`. -/
def MOTION_ZOOM_IN_KEYWORDS : List String :=
  ["loyal", "loyalty", "sweet", "honest", "memory", "favorite memory",
   "favourite memory", "sweetheart", "sweethearts", "clientele", "client",
   "clients", "relationship", "relationships", "consistency", "consistent"]

def MOTION_ANIMATION_HINTS : List String := ["zoom", "pulse", "bounce", "fade"]

def ALLOWED_MOTIONS : List String := ["zoomIn", "zoomOut"]

/-- One `HIGHLIGHT_SFX_RULES` entry. -/
structure SfxRule where
  keywords : List String
  sfx : String
  gain : ℚ
deriving DecidableEq

/-- `HIGHLIGHT_SFX_RULES`. -/
def HIGHLIGHT_SFX_RULES : List SfxRule :=
  [{ keywords := ["sweet", "honest"], sfx := "assets/sfx/emotion/applause.mp3", gain := -5/2 },
   { keywords := ["high school", "sweetheart", "sweethearts"], sfx := "assets/sfx/ui/pop.mp3", gain := -5/2 },
   { keywords := ["clientele", "client", "clients"], sfx := "assets/sfx/ui/pop.mp3", gain := -5/2 },
   { keywords := ["loyalty", "day one"], sfx := "assets/sfx/emphasis/ding.mp3", gain := -5/2 },
   { keywords := ["relationship", "relationships"], sfx := "assets/sfx/ui/bubble-pop.mp3", gain := -3 },
   { keywords := ["consistency", "consistent"], sfx := "assets/sfx/emphasis/ding.mp3", gain := -3 }]

/-- `match_broll_candidates`. -/
def match_broll_candidates (text : String) : List String :=
  let lowered := pyLower text
  (BROLL_RULES.filter (fun rule => rule.1.any (fun kw => strContains lowered kw))).map
    (fun rule => rule.2)

/-- `locate_segment` (first segment whose `[sourceStart, sourceStart+duration]`
window contains the timecode), with its position for the in-place update. -/
def locate_segment (segments : List Segment) (timecode : ℚ) : Option (ℕ × Segment) :=
  segments.enum.find? (fun e =>
    let s := e.2.sourceStart.getD 0
    decide (s ≤ timecode) && decide (timecode ≤ s + e.2.duration.getD 0))

/-- The video-extension fallback check applied to non-`video` media types. -/
def VIDEO_EXTENSIONS : List String := [".mp4", ".mov", ".m4v", ".webm", ".mpg", ".mpeg"]

/-- The media-type filter inside `ensure_broll_from_highlights`
(`continue` when a non-video item has no video file extension). -/
def broll_item_is_video (item : CatalogItem) : Bool :=
  let file_path := (pyOrOpt item.file (some "")).getD ""
  let media_type := pyLower (item.mediaType.getD "")
  !(media_type != "" && media_type != "video" &&
    !(VIDEO_EXTENSIONS.any (fun ext => (pyLower file_path).endsWith ext)))

/-- How many segments of a list carry a B-roll assignment with catalog id
`cid`. -/
def broll_count (segs : List Segment) (cid : String) : ℕ :=
  (segs.filter (fun sg => match sg.broll with
    | some b => b.id == some cid
    | none => false)).length

/-- `str(value)` of an id that may be `None`. -/
def showOptId : Option String → String
  | some s => s
  | none => "None"

/-- State of the `ensure_broll_from_highlights` loop: the (mutated) segment
list and `assigned_counts`. -/
structure BrollState where
  segments : List Segment
  counts : String → ℕ

/-- The `section_locked_segments` precomputation. -/
def section_locked (p : Plan) : List String :=
  p.highlights.foldl (fun acc h =>
    if !isSectionType h then acc
    else match h.start with
      | none => acc
      | some s =>
          match locate_segment p.segments s with
          | some e =>
              (match e.2.id with
               | some sid => if !sid.isEmpty && !acc.contains sid then acc ++ [sid] else acc
               | none => acc)
          | none => acc) []

/-- One candidate inspection inside `ensure_broll_from_highlights`: keep an
already-chosen candidate, otherwise take this one if it exists in the
catalog, looks like video, and is under the reuse quota. -/
def choose_broll_step (catalog_items : List CatalogItem) (counts : String → ℕ)
    (acc : Option (String × CatalogItem)) (cid : String) :
    Option (String × CatalogItem) :=
  match acc with
  | some c => some c
  | none =>
      match (catalog_items.filter (fun it => it.id == some cid)).getLast? with
      | none => none
      | some item =>
          if !broll_item_is_video item then none
          else if MAX_BROLL_REUSE ≤ counts cid then none
          else some (cid, item)

/-- Candidate selection inside `ensure_broll_from_highlights`: candidates
sorted by `(assigned_counts[cid], cid)`, first one that exists in the
catalog, looks like video, and is under the reuse quota. -/
def choose_broll_candidate (catalog_items : List CatalogItem) (counts : String → ℕ)
    (candidates : List String) : Option (String × CatalogItem) :=
  (sortByKey (fun (cid : String) => toLex (counts cid, cid)) candidates).foldl
    (choose_broll_step catalog_items counts) none

/-- One iteration of the highlight loop of `ensure_broll_from_highlights`. -/
def broll_step (catalog_items : List CatalogItem) (locked : List String)
    (st : BrollState) (h : Highlight) : BrollState :=
  match h.start with
  | none => st
  | some s =>
      match locate_segment st.segments s with
      | none => st
      | some e =>
          let idx := e.1
          let segment := e.2
          if segment.broll.isSome then st
          else if (match segment.id with
                   | some sid => locked.contains sid
                   | none => false) then st
          else if pyLower (h.type.getD "") == "sectiontitle" then st
          else
            let text_sources := [(h.keyword.getD "")] ++ (h.supportingTexts.getD []) ++
              (match pyOrOpt segment.label segment.title with
               | some l => if l.isEmpty then [] else [l]
               | none => [])
            let full_text := " ".intercalate (text_sources.filter (fun t => !t.isEmpty))
            if full_text.isEmpty then st
            else
              let candidates := match_broll_candidates full_text
              if candidates.isEmpty then st
              else
                match choose_broll_candidate catalog_items st.counts candidates with
                | none => st
                | some c =>
                    let cid := c.1
                    let chosen_item := c.2
                    if !broll_item_is_video chosen_item then st
                    else
                      let duration_hint := match chosen_item.durationHintSeconds with
                        | some q => if q == 0 then DEFAULT_BROLL_DURATION else q
                        | none => DEFAULT_BROLL_DURATION
                      let max_duration := round3 (min duration_hint
                        (segment.duration.getD duration_hint))
                      let reasons := ((BROLL_REASONS.find?
                        (fun r => some r.1 == chosen_item.id)).map (fun r => r.2)).getD
                        ["Highlight keyword match"]
                      let notes0 := segment.notes.filter
                        (fun n => !(pyLower n).startsWith "no b-roll match")
                      let note_text := ((BROLL_NOTES.find?
                        (fun r => some r.1 == chosen_item.id)).map (fun r => r.2)).getD
                        ("B-roll injected via highlight keyword: " ++ showOptId chosen_item.id)
                      let notes := if notes0.contains note_text then notes0
                                   else notes0 ++ [note_text]
                      let segment2 := { segment with
                        broll := some { id := chosen_item.id, file := chosen_item.file,
                                        mode := some "full", confidence := some 3,
                                        reasons := reasons, duration := some max_duration }
                        notes := notes }
                      { segments := st.segments.set idx segment2
                        counts := fun x => if x == cid then st.counts x + 1 else st.counts x }

/-- `ensure_broll_from_highlights`. -/
def ensure_broll_from_highlights (broll_catalog : Option BrollCatalog) (p : Plan) : Plan :=
  match broll_catalog with
  | none => p
  | some cat =>
      if cat.items.isEmpty then p
      else if p.segments.isEmpty then p
      else if p.highlights.isEmpty then p
      else
        let locked := section_locked p
        let final := p.highlights.foldl (broll_step cat.items locked)
          { segments := p.segments, counts := fun _ => 0 }
        { p with segments := final.segments }

/-- The motion value picked for one highlight inside
`ensure_motion_from_highlights`. -/
def motion_choice (importance : Option String) (zoom_out_hit : Bool)
    (combined_text animation_hint : String)
    (existing_cue last_motion : Option String) : String :=
  let has_number := combined_text.toList.any Char.isDigit
  if importance == some "primary" then
    if zoom_out_hit && last_motion == some "zoomIn" then "zoomOut"
    else if has_number then "zoomIn"
    else if last_motion == some "zoomIn" then "zoomOut"
    else "zoomIn"
  else if has_number then "zoomIn"
  else if MOTION_ZOOM_IN_KEYWORDS.any
    (fun k => strContains combined_text k) then "zoomIn"
  else if MOTION_ANIMATION_HINTS.contains animation_hint then "zoomIn"
  else if zoom_out_hit then "zoomOut"
  else match existing_cue with
       | some c =>
           if ALLOWED_MOTIONS.contains c then c
           else if last_motion == some "zoomIn" then "zoomOut" else "zoomIn"
       | none =>
           if last_motion == some "zoomIn" then "zoomOut" else "zoomIn"

/-- Whether the picked motion is actually written over the existing cue. -/
def motion_do_write (existingTruthy : Bool) (existing_cue : Option String)
    (motion : String) : Bool :=
  if existingTruthy then
    let c := existing_cue.getD ""
    if c == motion then false
    else if !ALLOWED_MOTIONS.contains c && ALLOWED_MOTIONS.contains motion then true
    else if ALLOWED_MOTIONS.contains c && motion != c then true
    else false
  else true

/-- The per-highlight body of `ensure_motion_from_highlights`, with the
early `break` when the budget is exhausted and the target has no cue. -/
def motion_loop (zoom_out_keywords : List String) (max_motions : ℤ) :
    List Segment → ℤ → Option String → List Highlight → List Segment
  | segs, _, _, [] => segs
  | segs, assigned, last_motion, h :: rest =>
      match h.start with
      | none => motion_loop zoom_out_keywords max_motions segs assigned last_motion rest
      | some s =>
          match locate_segment segs s with
          | none => motion_loop zoom_out_keywords max_motions segs assigned last_motion rest
          | some e =>
              let idx := e.1
              let segment := e.2
              let existing_cue := segment.motionCue
              let existingTruthy := truthyOpt existing_cue
              if max_motions ≤ assigned && !existingTruthy then segs
              else
                let text_parts := [(h.keyword.getD "")] ++ (h.supportingTexts.getD [])
                let combined_text := pyLower (" ".intercalate
                  (text_parts.filter (fun t => !t.isEmpty)))
                let animation_hint := pyLower (h.animation.getD "")
                let zoom_out_hit := zoom_out_keywords.any
                  (fun w => strContains combined_text w)
                let motion : String := motion_choice h.importance zoom_out_hit
                  combined_text animation_hint existing_cue last_motion
                if motion.isEmpty then
                  motion_loop zoom_out_keywords max_motions segs assigned last_motion rest
                else
                  let doWrite : Bool := motion_do_write existingTruthy existing_cue motion
                  if !doWrite then
                    motion_loop zoom_out_keywords max_motions segs assigned last_motion rest
                  else
                    let notes0 := segment.notes.filter
                      (fun n => !(pyLower n).startsWith "motion cue assigned")
                    let description := pyStrip
                      ((pyOrOpt (pyOrOpt (pyOrOpt h.text h.keyword) h.title) (some "")).getD "")
                    let gist := if description.isEmpty then "highlight context"
                                else "\x22" ++ description ++ "\x22"
                    let note_text := "Motion cue: " ++ motion ++ " emphasises " ++ gist ++ "."
                    let notes := if notes0.contains note_text then notes0
                                 else notes0 ++ [note_text]
                    let segment2 := { segment with motionCue := some motion, notes := notes }
                    motion_loop zoom_out_keywords max_motions (segs.set idx segment2)
                      (if existingTruthy then assigned else assigned + 1) (some motion) rest

/-- `ensure_motion_from_highlights`; `none` rules model a missing/empty
(falsy) rules dict, whose `.get` calls then return the defaults. -/
def ensure_motion_from_highlights (motion_rules : Option MotionRules) (p : Plan) : Plan :=
  if p.segments.isEmpty || p.highlights.isEmpty then p
  else
    let freq := match motion_rules with
      | some r => r.motion_frequency.getD (1/2)
      | none => (1/2)
    let max_motions : ℤ := max 1 (Int.ceil ((p.segments.length : ℚ) * freq))
    let assigned : ℤ := ((p.segments.filter (fun seg => truthyOpt seg.motionCue)).length : ℤ)
    let zoKw := match motion_rules with
      | some r => r.zoom_out_keywords
      | none => []
    { p with segments := motion_loop zoKw max_motions p.segments assigned none p.highlights }

/-- `ensure_highlight_sfx`. -/
def ensure_highlight_sfx (sfx_catalog : Option SfxCatalog) (p : Plan) : Plan :=
  if p.highlights.isEmpty then p
  else
    let available : List String := match sfx_catalog with
      | none => []
      | some c => c.items.foldl (fun acc it =>
          match pyOrOpt it.file it.id with
          | some path => acc ++ [pyLower path]
          | none => acc) []
    { p with highlights := p.highlights.map (fun h =>
        if truthyOpt h.sfx then h
        else
          let combined := pyLower (" ".intercalate
            (([h.text, h.keyword, h.title].filterMap id).filter (fun t => !t.isEmpty)))
          if combined.isEmpty then h
          else
            match HIGHLIGHT_SFX_RULES.find? (fun rule =>
              rule.keywords.any (fun kw => strContains combined kw) &&
              (available.isEmpty || available.contains (pyLower rule.sfx))) with
            | none => h
            | some rule =>
                { h with
                  sfx := some rule.sfx
                  gain := some rule.gain
                  metadata :=
                    (match h.metadata with
                     | none => some (.dict (some "auto"))
                     | some (.dict none) => some (.dict (some "auto"))
                     | some m => some m) }) }

/-- `strip_non_section_sfx`. -/
def strip_non_section_sfx (p : Plan) : Plan :=
  { p with highlights := p.highlights.map (fun h =>
      if h.type == some "sectionTitle" then h
      else
        let preserve := match h.metadata with
          | some (.dict (some a)) => a == "auto" || a == "keep" || a == "accent"
          | _ => false
        if preserve then h
        else { h with sfx := none, gain := none, ducking := none }) }

/-! ### Scene aggregation and scored selection -/

/-- A scene-map segment (`scene_map.json` entries). -/
structure SceneSeg where
  start : Option ℚ
  stop : Option ℚ
  topics : List String
  motionCandidates : List String
  tokens : List String
  sfxHints : List String
  highlightScore : Option ℚ
  cta : Bool
  textOneLine : Option String
deriving DecidableEq

/-- `SceneSummary`. -/
structure SceneSummary where
  start : ℚ
  stop : ℚ
  topics : List String
  highlight_score : ℚ
  motion_candidates : List String
  tokens : List String
  text : String
  cta : Bool
  sfx_hints : List String
deriving DecidableEq

/-- `SceneSummary.duration`. -/
def SceneSummary.duration (s : SceneSummary) : ℚ := max 0 (s.stop - s.start)

/-- `overlap_seconds`. -/
def overlap_seconds (a_start a_end b_start b_end : ℚ) : ℚ :=
  max 0 (min a_end b_end - max a_start b_start)

/-- `camel_case_motion`. -/
def camel_case_motion (name : String) : String :=
  let normalized := pyLower (String.mk
    ((pyStrip name).toList.map (fun c => if c == '-' || c == ' ' then '_' else c)))
  let parts := (normalized.splitOn "_").filter (fun part => !part.isEmpty)
  match parts with
  | [] => ""
  | first :: rest => first ++ String.join (rest.map pyTitle)

/-- A `collections.Counter` as an association list in first-seen order. -/
def counter_update (c : List (String × ℕ)) (xs : List String) : List (String × ℕ) :=
  xs.foldl (fun acc x =>
    if acc.any (fun p => p.1 == x) then
      acc.map (fun p => if p.1 == x then (p.1, p.2 + 1) else p)
    else acc ++ [(x, 1)]) c

/-- `Counter.most_common(n)` keys: stable sort by descending count (ties in
first-encountered order), take `n`. -/
def most_common (c : List (String × ℕ)) (n : ℕ) : List String :=
  ((sortByKey (fun (p : String × ℕ) => -(p.2 : ℤ)) c).take n).map (fun p => p.1)

/-- Accumulator of `aggregate_scene_for_segment`. -/
structure AggState where
  topics : List (String × ℕ)
  motion : List String
  tokens : List (String × ℕ)
  sfx : List (String × ℕ)
  scoreTotal : ℚ
  totalWeight : ℚ
  texts : List String
  ctaFlag : Bool

/-- `aggregate_scene_for_segment`. -/
def aggregate_scene_for_segment (plan_segment : Segment)
    (scene_segments : List SceneSeg) : Option SceneSummary :=
  let start := plan_segment.sourceStart.getD 0
  let e := start + plan_segment.duration.getD 0
  if e ≤ start then none
  else
    let st := scene_segments.foldl (fun (st : AggState) scene =>
      let scene_start := scene.start.getD 0
      let scene_end := scene.stop.getD scene_start
      let weight := overlap_seconds start e scene_start scene_end
      if weight ≤ 0 then st
      else
        { topics := counter_update st.topics scene.topics
          motion := scene.motionCandidates.foldl (fun acc cand =>
            let motion_name := camel_case_motion cand
            if !motion_name.isEmpty && !acc.contains motion_name then acc ++ [motion_name]
            else acc) st.motion
          tokens := counter_update st.tokens scene.tokens
          sfx := counter_update st.sfx scene.sfxHints
          scoreTotal := st.scoreTotal + (scene.highlightScore.getD 0) * weight
          totalWeight := st.totalWeight + weight
          texts := st.texts ++
            (match scene.textOneLine with
             | some t => if !t.isEmpty then [t] else []
             | none => [])
          ctaFlag := st.ctaFlag || scene.cta })
      { topics := [], motion := [], tokens := [], sfx := [],
        scoreTotal := 0, totalWeight := 0, texts := [], ctaFlag := false }
    if st.totalWeight == 0 then none
    else some
      { start := start
        stop := e
        topics := most_common st.topics 6
        highlight_score := st.scoreTotal / st.totalWeight
        motion_candidates := st.motion
        tokens := most_common st.tokens 24
        text := " ".intercalate st.texts
        cta := st.ctaFlag
        sfx_hints := most_common st.sfx 8 }

/-- Elementwise-distinct copy of a list (Python `set` contents in
first-seen order). -/
def dedup (l : List String) : List String :=
  l.foldl (fun acc x => if acc.contains x then acc else acc ++ [x]) []

/-- `repr` of a sorted list of plain strings, as interpolated into the
reason f-strings. -/
def pyListRepr (l : List String) : String :=
  "[" ++ ", ".intercalate (l.map (fun s => "\x27" ++ s ++ "\x27")) ++ "]"

/-- `score_broll_item`. -/
def score_broll_item (item : CatalogItem) (scene : SceneSummary) : ℚ × List String :=
  let item_topics := item.topics.map pyLower
  let scene_topics := scene.topics.map pyLower
  let topic_overlap := (dedup item_topics).filter (fun t => scene_topics.contains t)
  let p1 : ℚ × List String :=
    if !topic_overlap.isEmpty then
      ((5/2) * topic_overlap.length,
       ["topics match " ++ pyListRepr (sortByKey (fun (x : String) => x) topic_overlap)])
    else (0, [])
  let keywords := item.keywords.map pyLower
  let token_hits := (dedup scene.tokens).filter (fun t => keywords.contains t)
  let p2 : ℚ × List String :=
    if !token_hits.isEmpty then
      (p1.1 + token_hits.length,
       p1.2 ++ ["keywords hit " ++ pyListRepr (sortByKey (fun (x : String) => x) token_hits)])
    else p1
  let p3 : ℚ × List String :=
    if (7/10 : ℚ) ≤ scene.highlight_score && !item.mood.isEmpty then
      (p2.1 + 2/5, p2.2 ++ ["highlight scene prefers mood assets"])
    else p2
  let p4 := if item.mediaType == some "video" then p3.1 + 3/10 else p3.1
  let p5 := if item.orientation == some "landscape" then p4 + 1/10 else p4
  (p5, if p3.2.isEmpty then ["fallback"] else p3.2)

/-- `select_broll`; returns the chosen item with its rounded confidence and
reasons (the dict fields `id`/`file`/`mediaType`/`orientation` are those of
the item). -/
def select_broll (scene : SceneSummary) (catalog : BrollCatalog) (threshold : ℚ) :
    Option (CatalogItem × ℚ × List String) :=
  if catalog.items.isEmpty then none
  else
    let filtered_items := catalog.items.filter
      (fun it => decide (scene.duration * (4/5) ≤ it.duration.getD 0))
    if filtered_items.isEmpty then none
    else
      let best := filtered_items.foldl
        (fun (acc : Option CatalogItem × ℚ × List String) item =>
          let sr := score_broll_item item scene
          if acc.2.1 < sr.1 then (some item, sr.1, sr.2) else acc) (none, 0, [])
      match best.1 with
      | none => none
      | some item =>
          if best.2.1 < threshold || scene.highlight_score < 3/5 then none
          else some (item, round2 best.2.1, best.2.2)

/-- `select_motion_cue`. -/
def select_motion_cue (scene : SceneSummary) (motion_rules : MotionRules)
    (assigned_so_far total_segments : ℕ) : Option String :=
  let frequency := motion_rules.motion_frequency.getD 0
  let max_segments : ℤ :=
    if 0 < frequency then Int.ceil ((total_segments : ℚ) * frequency)
    else (total_segments : ℤ)
  if max_segments ≤ (assigned_so_far : ℤ) then none
  else if !scene.motion_candidates.isEmpty then scene.motion_candidates.head?
  else if motion_rules.highlight_rate.getD 0 ≤ scene.highlight_score then some "zoomIn"
  else if (2/5 : ℚ) ≤ scene.highlight_score && 5 < scene.duration then some "pan"
  else if scene.highlight_score < 2/5 && 3 < scene.duration then some "zoomOut"
  else none

/-- One iteration of the per-segment loop of `enrich_plan` (the
`kind` default, scene aggregation, the B-roll and motion-cue assignments,
SFX-hint propagation, and the notes trail).  The state is the processed
segment list and `assigned_motion`. -/
def enrich_segment_step (scene_segments : List SceneSeg)
    (broll_catalog : Option BrollCatalog) (motion_rules : Option MotionRules)
    (broll_threshold : ℚ) (total_segments : ℕ)
    (st : List Segment × ℕ) (segment0 : Segment) : List Segment × ℕ :=
  let segment := { segment0 with kind := some (segment0.kind.getD "normal") }
  match aggregate_scene_for_segment segment scene_segments with
  | none =>
      (st.1 ++ [{ segment with notes := segment.notes ++
        ["No matching scene metadata; skipped B-roll and motion cue."] }], st.2)
  | some scene_summary =>
      let sb : Segment × List String :=
        match broll_catalog with
        | none => (segment, [])
        | some cat =>
            match select_broll scene_summary cat broll_threshold with
            | some b =>
                ({ segment with broll := some (Broll.mk b.1.id b.1.file (some "full")
                    (some b.2.1) b.2.2 none) },
                 ["B-roll assigned: " ++ showOptId b.1.id ++ " (" ++
                   ", ".intercalate b.2.2 ++ ")"])
            | none => (segment, ["No B-roll match above threshold."])
      let sm : Segment × List String × ℕ :=
        match motion_rules with
        | none => (sb.1, sb.2, st.2)
        | some rules =>
            match select_motion_cue scene_summary rules st.2 total_segments with
            | some cue =>
                ({ sb.1 with motionCue := some cue },
                 sb.2 ++ ["Motion cue assigned: " ++ cue], st.2 + 1)
            | none => (sb.1, sb.2, st.2)
      let sh : Segment × List String :=
        if !scene_summary.sfx_hints.isEmpty && sm.1.sfxHints.isNone then
          ({ sm.1 with sfxHints := some scene_summary.sfx_hints },
           sm.2.1 ++ ["SFX hints propagated: " ++ ", ".intercalate scene_summary.sfx_hints])
        else (sm.1, sm.2.1)
      let segF := if sh.2.isEmpty then sh.1 else { sh.1 with notes := sh.1.notes ++ sh.2 }
      (st.1 ++ [segF], sm.2.2)

/-- The segment loop of `enrich_plan` (its CTA-candidate collection and the
highlight-injection helpers `ensure_cta_highlight` / `inject_section_cards`,
which only append highlights, are not modelled; every theorem below that
depends on the highlight list quantifies over an arbitrary plan reaching
the later passes). -/
def enrich_plan_segments (scene_segments : List SceneSeg)
    (broll_catalog : Option BrollCatalog) (motion_rules : Option MotionRules)
    (broll_threshold : ℚ) (p : Plan) : Plan :=
  { p with segments :=
      (p.segments.foldl
        (enrich_segment_step scene_segments broll_catalog motion_rules broll_threshold
          p.segments.length) ([], 0)).1 }

/-- The highlight passes `main` runs after `enforce_highlight_spacing`, in
source order (`prune_highlights`, `trim_highlights_to_segments`,
`ensure_broll_from_highlights`, `ensure_motion_from_highlights`,
`ensure_highlight_sfx`, `strip_non_section_sfx`), starting with the
spacing pass itself. -/
def post_spacing_passes (broll_catalog : Option BrollCatalog)
    (sfx_catalog : Option SfxCatalog) (motion_rules : Option MotionRules)
    (p : Plan) : Plan :=
  strip_non_section_sfx (ensure_highlight_sfx sfx_catalog
    (ensure_motion_from_highlights motion_rules
      (ensure_broll_from_highlights broll_catalog
        (trim_highlights_to_segments (1/4)
          (prune_highlights MAX_TOTAL_HIGHLIGHTS
            (enforce_highlight_spacing (1/5) (3/5) p))))))

/-- The modelled slice of `main`: the `enrich_plan` segment loop followed by
the post-spacing highlight passes.  The omitted passes (CTA and section-card
injection, catalog/SRT highlight augmentation, transcript snapping, phrase
refresh, section decoration) run before `enforce_highlight_spacing` and only
add highlights or edit highlight text/timing fields; they never touch
segment `broll`/`motionCue` assignments. -/
def enrich_pipeline (scene_segments : List SceneSeg)
    (broll_catalog : Option BrollCatalog) (sfx_catalog : Option SfxCatalog)
    (motion_rules : Option MotionRules) (broll_threshold : ℚ) (p : Plan) : Plan :=
  post_spacing_passes broll_catalog sfx_catalog motion_rules
    (enrich_plan_segments scene_segments broll_catalog motion_rules broll_threshold p)

/-- The timing projection of a highlight: its `start` and `duration`. -/
def hlProj (h : Highlight) : Option Rat × Option Rat := (h.start, h.duration)

/-- Numeric timing with the duration floored at `md`, as guaranteed by the
spacing pass. -/
def SpacedWF (md : Rat) (h : Highlight) : Prop :=
  (∃ s, h.start = some s) ∧ ∃ q, h.duration = some q ∧ md ≤ q

/-- The minimum-spacing relation between an earlier highlight `a` and a
later highlight `b`: `b` starts no earlier than the end of `a` plus the
gap, up to the half-cent error of 2-decimal rounding. -/
def SpacedRel (mg md : Rat) (a b : Highlight) : Prop :=
  a.start.getD 0 + a.duration.getD md + mg - 1/200 ≤ b.start.getD 0

/-- The spacing invariant of a highlight list. -/
def GoodSpacing (mg md : Rat) (l : List Highlight) : Prop :=
  (∀ h ∈ l, SpacedWF md h) ∧ l.Pairwise (SpacedRel mg md)

/-! ### Concrete-instance helpers (for the example plans below) -/

/-- A highlight with only `id`/`type`/`start`/`duration`/`text` set. -/
def mkHighlight (id type : Option String) (start duration : Option ℚ)
    (text : Option String) : Highlight :=
  { id := id, type := type, start := start, duration := duration,
    importance := none, text := text, keyword := none, title := none,
    animation := none, supportingTexts := none, sfx := none, gain := none,
    ducking := none, metadata := none }

/-- A segment with only `id`/`sourceStart`/`duration` set. -/
def mkSegment (id : Option String) (sourceStart duration : Option ℚ) : Segment :=
  { id := id, sourceStart := sourceStart, duration := duration, label := none,
    title := none, kind := none, broll := none, motionCue := none,
    notes := [], sfxHints := none }

/-- A scene-map entry with the fields the examples use. -/
def mkSceneSeg (start stop : Option ℚ) (topics : List String)
    (highlightScore : Option ℚ) : SceneSeg :=
  { start := start, stop := stop, topics := topics, motionCandidates := [],
    tokens := [], sfxHints := [], highlightScore := highlightScore,
    cta := false, textOneLine := none }

/-! ### Concrete example plans used by the claim theorems below -/

/-- A plan with one negative-duration segment and one early highlight
(exercises the trimming cutoff). -/
def trim_example : Plan :=
  Plan.mk [mkSegment (some "s1") (some 10) (some (-5))]
    [mkHighlight (some "a") (some "noteBox") (some 8) (some 2) none]

/-- The spec §8 spacing example: highlights at `start=10,duration=3` and
`start=12,duration=3`. -/
def spacing_example : Plan :=
  Plan.mk []
    [mkHighlight (some "a") (some "noteBox") (some 10) (some 3) (some "Budget Report"),
     mkHighlight (some "b") (some "noteBox") (some 12) (some 3) (some "Second Topic")]

/-- The first highlight of the spec example: start 10, duration 3. -/
def c2_prev : Highlight :=
  mkHighlight (some "a") (some "noteBox") (some 10) (some 3) (some "Budget Report")

/-- The second highlight of the spec example: start 12, duration 3. -/
def c2_cur : Highlight :=
  mkHighlight (some "b") (some "noteBox") (some 12) (some 3) (some "Second Topic")

/-- Overlapping highlights at 10s and 11s over a 100s segment: the spacing
pass trims the first one to 0.8s. -/
def short_trim_example : Plan :=
  Plan.mk [mkSegment (some "s1") (some 0) (some 100)]
    [mkHighlight (some "a") (some "noteBox") (some 10) (some 3) (some "Budget Report"),
     mkHighlight (some "b") (some "noteBox") (some 11) (some 3) (some "Second Topic")]

/-- 21 highlights sharing one id (exercises the id-based retention of
`prune_highlights`). -/
def dup_id_example : Plan :=
  Plan.mk []
    ((List.range 21).map (fun i =>
      mkHighlight (some "h") (some "noteBox") (some ((i : ℚ) * 10)) (some 3) none))

/-- A catalog with a single high-scoring item (topic `data`). -/
def mono_catalog : BrollCatalog :=
  BrollCatalog.mk [CatalogItem.mk (some "data_analysis") (some "x.mp4")
    ["data"] [] [] (some "video") none (some 100) none]

/-- A scene map entry making every segment of `three_segment_plan` a
B-roll candidate (score 0.62) without triggering section cards. -/
def mono_scene : List SceneSeg := [mkSceneSeg (some 0) (some 30) ["data"] (some (62/100))]

/-- Three plain ten-second segments. -/
def three_segment_plan : Plan :=
  Plan.mk [mkSegment (some "s1") (some 0) (some 10),
    mkSegment (some "s2") (some 10) (some 10),
    mkSegment (some "s3") (some 20) (some 10)] []

/-- Motion rules whose `highlight_rate` is above the scene score. -/
def pan_rules : MotionRules :=
  { motion_frequency := some 1, highlight_rate := some (9/10), zoom_out_keywords := [] }

/-- A single scene entry with score 0.5 over a 6-second window. -/
def pan_scene : List SceneSeg := [mkSceneSeg (some 0) (some 6) [] (some (1/2))]

/-- One 6-second segment, no highlights. -/
def pan_plan : Plan := Plan.mk [mkSegment (some "s1") (some 0) (some 6)] []

/-- One 6-second segment and one covering highlight (for the motion pass). -/
def c7_plan : Plan := Plan.mk [mkSegment (some "s1") (some 0) (some 6)]
  [mkHighlight (some "h1") (some "noteBox") (some 1) (some 2) (some "5 tips")]

/-- Two highlights with distinct ids (for the pruning cap). -/
def c4_plan : Plan := Plan.mk []
  [mkHighlight (some "a") (some "noteBox") (some 0) (some 2) (some "Alpha"),
   mkHighlight (some "b") (some "noteBox") (some 5) (some 2) (some "Beta")]

end EnrichPlan

namespace MakePlan

/-- The spec §8 normalizer example: raw segment `{start: 0, end: 5}`. -/
def seg_example_plan : Value :=
  .obj [("segments", .arr [.obj [("start", .num 0), ("end", .num 5)]])]

/-- A record plan whose only segment carries a numeric `label`. -/
def numeric_label_plan : Value :=
  .obj [("segments", .arr [.obj [("duration", .num 2), ("label", .num 5)]])]

/-- A record plan whose only segment has duration `0.0004`, which survives
normalization with duration rounded to `0.0`. -/
def tiny_duration_plan : Value :=
  .obj [("segments", .arr [.obj [("start", .num 0), ("duration", .num (4/10000))]])]

/-- A minimal raw segment record used to witness re-normalization stability. -/
def c9_raw : Value := .obj [("start", .num 0), ("duration", .num 2)]

/-- The normalized segment that `normalize_segment` produces from `c9_raw`. -/
def c9_seg : NSegment :=
  { id := "segment-01", sourceStart := 0, duration := 2, label := none, title := none,
    silenceAfter := false, gapAfter := none, playbackRate := none, transitionIn := none,
    transitionOut := none, cameraMovement := none, metadata := none }

end MakePlan

/-! ## Helper lemmas: rounding -/

theorem pyRoundInt_intCast (n : ℤ) : pyRoundInt (n : ℚ) = n := by
  simp [pyRoundInt]

theorem pyRoundInt_ge (x : ℚ) : x - 1/2 ≤ (pyRoundInt x : ℚ) := by
  have hf : ((⌊x⌋ : ℤ) : ℚ) ≤ x := Int.floor_le x
  have hf2 : x < (⌊x⌋ : ℚ) + 1 := Int.lt_floor_add_one x
  dsimp only [pyRoundInt]
  split_ifs with h1 h2 h3 <;> push_cast <;> linarith

theorem pyRoundInt_le (x : ℚ) : (pyRoundInt x : ℚ) ≤ x + 1/2 := by
  have hf : ((⌊x⌋ : ℤ) : ℚ) ≤ x := Int.floor_le x
  have hf2 : x < (⌊x⌋ : ℚ) + 1 := Int.lt_floor_add_one x
  dsimp only [pyRoundInt]
  split_ifs with h1 h2 h3 <;> push_cast <;> linarith

theorem pyRoundInt_ge_int (n : ℤ) (x : ℚ) (h : (n : ℚ) ≤ x) : n ≤ pyRoundInt x := by
  have h1 := pyRoundInt_ge x
  have h2 : ((n : ℤ) : ℚ) < (pyRoundInt x : ℚ) + 1 := by linarith
  exact Int.lt_add_one_iff.mp (by exact_mod_cast h2)

theorem pyRoundInt_le_int (n : ℤ) (x : ℚ) (h : x ≤ (n : ℚ)) : pyRoundInt x ≤ n := by
  have h1 := pyRoundInt_le x
  have h2 : (pyRoundInt x : ℚ) < ((n : ℤ) : ℚ) + 1 := by linarith
  exact Int.lt_add_one_iff.mp (by exact_mod_cast h2)

theorem round2_ge (x : ℚ) : x - 1/200 ≤ round2 x := by
  have := pyRoundInt_ge (x * 100)
  unfold round2
  linarith

theorem round2_le (x : ℚ) : round2 x ≤ x + 1/200 := by
  have := pyRoundInt_le (x * 100)
  unfold round2
  linarith

/-- `round2` does not cross a hundredth bound from above. -/
theorem round2_ge_cent (n : ℤ) (x : ℚ) (h : (n : ℚ)/100 ≤ x) : (n : ℚ)/100 ≤ round2 x := by
  have h1 : (n : ℚ) ≤ x * 100 := by linarith
  have h2 := pyRoundInt_ge_int n (x * 100) h1
  unfold round2
  have : (n : ℚ) ≤ (pyRoundInt (x * 100) : ℚ) := by exact_mod_cast h2
  linarith

/-- `round3` does not cross a thousandth bound from above. -/
theorem round3_ge_mil (n : ℤ) (x : ℚ) (h : (n : ℚ)/1000 ≤ x) : (n : ℚ)/1000 ≤ round3 x := by
  have h1 : (n : ℚ) ≤ x * 1000 := by linarith
  have h2 := pyRoundInt_ge_int n (x * 1000) h1
  unfold round3
  have : (n : ℚ) ≤ (pyRoundInt (x * 1000) : ℚ) := by exact_mod_cast h2
  linarith

/-- `round3` does not cross a thousandth bound from below. -/
theorem round3_le_mil (n : ℤ) (x : ℚ) (h : x ≤ (n : ℚ)/1000) : round3 x ≤ (n : ℚ)/1000 := by
  have h1 : x * 1000 ≤ (n : ℚ) := by linarith
  have h2 := pyRoundInt_le_int n (x * 1000) h1
  unfold round3
  have : (pyRoundInt (x * 1000) : ℚ) ≤ (n : ℚ) := by exact_mod_cast h2
  linarith

theorem round3_idem (x : ℚ) : round3 (round3 x) = round3 x := by
  unfold round3
  have h : (pyRoundInt (x * 1000) : ℚ) / 1000 * 1000 = ((pyRoundInt (x * 1000) : ℤ) : ℚ) := by
    field_simp
  rw [h, pyRoundInt_intCast]

/-! ## Helper lemmas: the stable sort -/

theorem insertLt_perm (lt : α → α → Bool) (x : α) (l : List α) :
    (insertLt lt x l).Perm (x :: l) := by
  induction l with
  | nil => simp [insertLt]
  | cons y ys ih =>
      by_cases h : lt y x
      · simp only [insertLt, h, if_pos]
        exact ((ih.cons y).trans (List.Perm.swap x y ys))
      · simp [insertLt, h]

theorem sortStable_perm (lt : α → α → Bool) (l : List α) :
    (sortStable lt l).Perm l := by
  induction l with
  | nil => simp [sortStable]
  | cons x xs ih =>
      exact (insertLt_perm lt x (sortStable lt xs)).trans (ih.cons x)

theorem sortStable_eq_self (lt : α → α → Bool) (l : List α)
    (h : l.Pairwise (fun a b => lt b a = false)) : sortStable lt l = l := by
  induction l with
  | nil => rfl
  | cons x xs ih =>
      rcases List.pairwise_cons.mp h with ⟨hx, hxs⟩
      rw [sortStable, ih hxs]
      cases xs with
      | nil => rfl
      | cons y ys =>
          have hyx := hx y (List.mem_cons_self y ys)
          simp [insertLt, hyx]

theorem sortByKey_perm [LinearOrder β] (key : α → β) (l : List α) :
    (sortByKey key l).Perm l := sortStable_perm _ l

theorem sortByKey_eq_self [LinearOrder β] (key : α → β) (l : List α)
    (h : l.Pairwise (fun a b => key a ≤ key b)) : sortByKey key l = l := by
  apply sortStable_eq_self
  exact h.imp (fun hab => by simpa using not_lt.mpr hab)

theorem insertLt_key_sorted [LinearOrder β] (key : α → β) (x : α) (l : List α)
    (h : l.Pairwise (fun a b => key a ≤ key b)) :
    (insertLt (fun a b => decide (key a < key b)) x l).Pairwise
      (fun a b => key a ≤ key b) := by
  induction l with
  | nil => simp [insertLt]
  | cons y ys ih =>
      rcases List.pairwise_cons.mp h with ⟨hy, hys⟩
      by_cases hlt : key y < key x
      · rw [insertLt, if_pos (decide_eq_true hlt)]
        refine List.pairwise_cons.mpr ⟨?_, ih hys⟩
        intro b hb
        have hb2 : b ∈ x :: ys := (insertLt_perm _ x ys).mem_iff.mp hb
        rcases List.mem_cons.mp hb2 with h1 | h1
        · rw [h1]; exact le_of_lt hlt
        · exact hy b h1
      · rw [insertLt, if_neg (by simp [hlt])]
        refine List.pairwise_cons.mpr ⟨?_, h⟩
        intro b hb
        rcases List.mem_cons.mp hb with h1 | h1
        · rw [h1]; exact not_lt.mp hlt
        · exact le_trans (not_lt.mp hlt) (hy b h1)

theorem sortByKey_sorted [LinearOrder β] (key : α → β) (l : List α) :
    (sortByKey key l).Pairwise (fun a b => key a ≤ key b) := by
  induction l with
  | nil => simp [sortByKey, sortStable]
  | cons x xs ih => exact insertLt_key_sorted key x _ ih

theorem sortByKey_mem_iff [LinearOrder β] (key : α → β) (l : List α) (a : α) :
    a ∈ sortByKey key l ↔ a ∈ l := (sortByKey_perm key l).mem_iff

/-! ## C10: the final trimming pass -/

open EnrichPlan in
/-- C10 counterexample: with a single segment `{sourceStart: 10, duration: -5}`
the claim's cutoff `max(sourceStart + duration) + 0.25 = 5.25` would remove
the highlight at `start = 8`, but `trim_highlights_to_segments` keeps it
(the code clamps negative durations to 0, giving cutoff `10.25`). -/
theorem C10_counterexample :
    ((trim_highlights_to_segments (1/4) trim_example).highlights.map
      (fun h => h.start)) = [some 8] ∧ ¬((8 : ℚ) ≤ (10 + (-5)) + 1/4) := by
  constructor
  · with_unfolding_all decide
  · norm_num

open EnrichPlan in
/-- C10 (amended): after the trimming pass on a plan with at least one
segment, every surviving highlight has a numeric start at most 0.25s past
`segments_latest_end` — the maximum, floored at 0, of
`sourceStart + max(0, duration)` over the segments (not of
`sourceStart + duration` as claimed); non-numeric or later starts are
removed, kept highlights are exactly the passing ones, and the survivors
are sorted by start. -/
theorem C10_amended_trim_cutoff (p : Plan) (hseg : p.segments ≠ []) :
    (∀ h ∈ (trim_highlights_to_segments (1/4) p).highlights,
       ∃ s : ℚ, h.start = some s ∧ s ≤ segments_latest_end p.segments + 1/4) ∧
    ((trim_highlights_to_segments (1/4) p).highlights.Pairwise
       (fun a b => a.start.getD 0 ≤ b.start.getD 0)) ∧
    (∀ h ∈ p.highlights,
       (∃ s : ℚ, h.start = some s ∧ s ≤ segments_latest_end p.segments + 1/4) →
       h ∈ (trim_highlights_to_segments (1/4) p).highlights) := by
  have hs : p.segments.isEmpty = false := by
    cases hp : p.segments with
    | nil => exact absurd hp hseg
    | cons _ _ => rfl
  by_cases hh : p.highlights.isEmpty = true
  · have hempty : p.highlights = [] := List.isEmpty_iff.mp hh
    unfold trim_highlights_to_segments
    rw [hs, hh]
    simp [hempty]
  · have hcond : (p.segments.isEmpty || p.highlights.isEmpty) = false := by
      rw [hs, Bool.eq_false_iff.mpr hh]; rfl
    unfold trim_highlights_to_segments
    rw [hcond]
    simp only [Bool.false_eq_true, if_false]
    refine ⟨?_, ?_, ?_⟩
    · intro h hmem
      have h1 := (sortByKey_mem_iff _ _ h).mp hmem
      have h2 := List.mem_filter.mp h1
      rcases hstart : h.start with _ | s
      · rw [hstart] at h2; simp at h2
      · refine ⟨s, rfl, ?_⟩
        have := h2.2
        rw [hstart] at this
        simpa using this
    · exact sortByKey_sorted _ _
    · intro h hmem ⟨s, hstart, hle⟩
      apply (sortByKey_mem_iff _ _ h).mpr
      apply List.mem_filter.mpr
      refine ⟨hmem, ?_⟩
      rw [hstart]
      simpa using hle

open EnrichPlan in
/-- Witness for `C10_amended_trim_cutoff` at the concrete example plan. -/
theorem C10_witness :
    trim_example.segments ≠ [] ∧
    ∀ h ∈ (trim_highlights_to_segments (1/4) trim_example).highlights,
      ∃ s : ℚ, h.start = some s ∧ s ≤ segments_latest_end trim_example.segments + 1/4 :=
  ⟨by decide, (C10_amended_trim_cutoff trim_example (by decide)).1⟩


/-! ## C3: segment duration priority in the Schema Normalizer -/

open MakePlan in
/-- C3: the normalizer's segment duration is the first positive value among
the raw `duration`, `end - start`, and `length`, in that order
(`spec_segment_duration` is the spec's wording); a segment whose computed
duration is non-positive is discarded; and the raw segment
`{start: 0, end: 5}` normalizes to `{id: "segment-01", sourceStart: 0,
duration: 5}`. -/
theorem C3_segment_duration_priority :
    (∀ (rawSeg : Value) (source_start : ℚ),
       spec_segment_duration rawSeg source_start =
         if 0 < segDuration rawSeg source_start
         then some (segDuration rawSeg source_start) else none) ∧
    (∀ (fs : List (String × Value)) (idx : ℕ),
       segDuration (.obj fs) (seg_source_start (.obj fs)) ≤ 0 →
       normalize_segment (.obj fs) idx = .ok none) ∧
    (((normalize_plan [] [] seg_example_plan).map
       (fun p => p.segments.map (fun s => (s.id, s.sourceStart, s.duration)))).toOption =
     some [("segment-01", 0, 5)]) := by
  refine ⟨?_, ?_, ?_⟩
  · intro rawSeg source_start
    unfold spec_segment_duration segDuration
    set d0 := ensure_float (rawSeg.pyGet "duration") 0 with hd0
    set ev := ensure_float (rawSeg.pyGet "end") 0 with hev
    set lv := ensure_float (rawSeg.pyGet "length") 0 with hlv
    set sv := (match rawSeg.get? "start" with
               | some v => ensure_float v 0
               | none => source_start) with hsv
    by_cases h1 : 0 < d0
    · have h1' : ¬ d0 ≤ 0 := not_le.mpr h1
      simp [List.find?, h1, h1']
    · have h1' : d0 ≤ 0 := not_lt.mp h1
      by_cases h2 : sv < ev
      · have h2' : 0 < ev - sv := sub_pos.mpr h2
        have h2'' : ¬ ev - sv ≤ 0 := not_le.mpr h2'
        simp [List.find?, h1, h1', h2, h2', h2'']
      · have h2' : ¬ (0 < ev - sv) := fun hc => h2 (sub_pos.mp hc)
        by_cases h3 : 0 < lv
        · have h3' : ¬ lv ≤ 0 := not_le.mpr h3
          simp [List.find?, h1, h1', h2, h2', h3, h3']
        · have h3' : lv ≤ 0 := not_lt.mp h3
          simp [List.find?, h1, h1', h2, h2', h3, h3']
  · intro fs idx h
    unfold normalize_segment
    simp only [h, if_pos]
    rfl
  · with_unfolding_all decide

open MakePlan in
/-- Witness for `C3_segment_duration_priority`: a raw segment with negative
`duration` and no fallbacks is discarded. -/
theorem C3_witness :
    segDuration (.obj [("duration", .num (-1))])
      (seg_source_start (.obj [("duration", .num (-1))])) ≤ 0 ∧
    normalize_segment (.obj [("duration", .num (-1))]) 0 = .ok none :=
  ⟨by with_unfolding_all decide,
   C3_segment_duration_priority.2.1 [("duration", .num (-1))] 0
     (by with_unfolding_all decide)⟩

/-! ## C8: only a non-record input should be fatal -/

open MakePlan in
/-- C8 (code evaluated at the failing input): `normalize_plan` on the
*record* `{"segments": [{"duration": 2, "label": 5}]}` raises
`AttributeError` — `(raw_segment.get("label") or "").strip()` calls
`.strip()` on the truthy integer 5 — so an exception other than the
invalid-input `ValueError` escapes normalization on a record input,
contradicting the claim.  A non-record input does fail with the
invalid-input `ValueError`, as the remaining conjuncts show. -/
theorem C8_record_input_crashes :
    Value.isRecord numeric_label_plan = true ∧
    normalize_plan [] [] numeric_label_plan = .error (.attributeError "strip") ∧
    normalize_plan [] [] .null = .error (.valueError "Plan must be a JSON object.") ∧
    (∀ b, normalize_plan [] [] (.bool b) =
      .error (.valueError "Plan must be a JSON object.")) ∧
    (∀ q, normalize_plan [] [] (.num q) =
      .error (.valueError "Plan must be a JSON object.")) ∧
    (∀ s, normalize_plan [] [] (.str s) =
      .error (.valueError "Plan must be a JSON object.")) ∧
    (∀ l, normalize_plan [] [] (.arr l) =
      .error (.valueError "Plan must be a JSON object.")) := by
  refine ⟨rfl, by with_unfolding_all rfl, rfl, fun b => rfl, fun q => rfl,
    fun s => rfl, fun l => rfl⟩

/-! ## C9: the Schema Normalizer is not idempotent -/

open MakePlan in
/-- C9 counterexample: the record `{"segments": [{"start": 0, "duration":
0.0004}]}` normalizes to one segment (duration rounded to `0.0`), but
normalizing that output again drops the segment — `normalize ∘ normalize ≠
normalize`. -/
theorem C9_counterexample :
    (((normalize_plan [] [] tiny_duration_plan).map
       (fun p => p.segments.length)).toOption = some 1) ∧
    ((((normalize_plan [] [] tiny_duration_plan).bind
       (fun p => normalize_plan [] [] p.toValue)).map
       (fun p => p.segments.length)).toOption = some 0) := by
  constructor
  · with_unfolding_all decide
  · with_unfolding_all decide

/-- Inversion of a successful `Except` bind. -/
theorem except_bind_ok {ε α β : Type} {m : Except ε α} {k : α → Except ε β} {r : β}
    (h : (m >>= k) = .ok r) : ∃ a, m = .ok a ∧ k a = .ok r := by
  cases m with
  | error e => simp [Bind.bind, Except.bind] at h
  | ok a => exact ⟨a, rfl, by simpa [Bind.bind, Except.bind] using h⟩

open MakePlan in
/-- `stripOr` cannot fail when every candidate is a string or null. -/
theorem stripOr_ok_of_strings (vs : List Value)
    (h : ∀ v ∈ vs, (∃ s, v = .str s) ∨ v = .null) : ∃ s, stripOr vs = .ok s := by
  unfold stripOr
  cases hf : firstTruthy? vs with
  | none => exact ⟨"", rfl⟩
  | some v =>
      have hmem : v ∈ vs := List.mem_of_find?_eq_some hf
      rcases h v hmem with ⟨s, rfl⟩ | rfl
      · exact ⟨pyStrip s, rfl⟩
      · have := List.find?_some hf
        simp [Value.truthy] at this

open MakePlan in
/-- `lowerOr` cannot fail when every candidate is a string or null. -/
theorem lowerOr_ok_of_strings (vs : List Value)
    (h : ∀ v ∈ vs, (∃ s, v = .str s) ∨ v = .null) : ∃ s, lowerOr vs = .ok s := by
  unfold lowerOr
  cases hf : firstTruthy? vs with
  | none => exact ⟨"", rfl⟩
  | some v =>
      have hmem : v ∈ vs := List.mem_of_find?_eq_some hf
      rcases h v hmem with ⟨s, rfl⟩ | rfl
      · exact ⟨pyLower s, rfl⟩
      · have := List.find?_some hf
        simp [Value.truthy] at this

open MakePlan in
/-- `normalize_transition` on a record whose `type` and `direction` fields are
strings-or-absent always succeeds. -/
theorem normalize_transition_obj_ok (fs : List (String × Value)) (a b : String)
    (ha : lowerOr [(Value.obj fs).pyGet "type", (Value.obj fs).pyGet "style"] = .ok a)
    (hb : lowerOr [(Value.obj fs).pyGet "direction", (Value.obj fs).pyGet "dir"] = .ok b) :
    ∃ r, normalize_transition (.obj fs) = .ok r := by
  simp only [normalize_transition]
  rw [ha]
  simp only [Bind.bind, Except.bind]
  rw [hb]
  simp only [Bind.bind, Except.bind]
  exact ⟨_, rfl⟩

open MakePlan in
/-- `normalize_transition` succeeds on a re-serialized transition. -/
theorem normalize_transition_toValue_ok (t : Transition) :
    ∃ r, normalize_transition (Transition.toValue t) = .ok r := by
  obtain ⟨a, ha⟩ := lowerOr_ok_of_strings [(Transition.toValue t).pyGet "type",
    (Transition.toValue t).pyGet "style"] (by
      intro v hv
      rcases List.mem_cons.mp hv with rfl | hv2
      · exact Or.inl ⟨t.type, rfl⟩
      · simp only [List.mem_cons, List.not_mem_nil, or_false] at hv2
        rw [hv2]; exact Or.inr rfl)
  obtain ⟨b, hb⟩ := lowerOr_ok_of_strings [(Transition.toValue t).pyGet "direction",
    (Transition.toValue t).pyGet "dir"] (by
      intro v hv
      rcases List.mem_cons.mp hv with rfl | hv2
      · show (∃ s, optStrV t.direction = .str s) ∨ optStrV t.direction = .null
        cases t.direction with
        | some d => exact Or.inl ⟨d, rfl⟩
        | none => exact Or.inr rfl
      · simp only [List.mem_cons, List.not_mem_nil, or_false] at hv2
        rw [hv2]; exact Or.inr rfl)
  exact normalize_transition_obj_ok _ a b ha hb

open MakePlan in
/-- `normalize_transition` succeeds on the serialization of an optional
transition padded with nulls, as produced by `NSegment.toValue`. -/
theorem normalize_transition_optValue_ok (o : Option Transition) :
    ∃ r, normalize_transition (firstTruthyOrNull
      [(match o with | some t => Transition.toValue t | none => Value.null),
       Value.null, Value.null]) = .ok r := by
  cases o with
  | none => exact ⟨none, rfl⟩
  | some tr =>
      show ∃ r, normalize_transition (firstTruthyOrNull
        [Transition.toValue tr, Value.null, Value.null]) = .ok r
      rw [show firstTruthyOrNull [Transition.toValue tr, Value.null, Value.null] =
        Transition.toValue tr from rfl]
      exact normalize_transition_toValue_ok tr


open MakePlan in
/-- An optional string serializes to a string or null. -/
theorem optStrV_str_or_null (o : Option String) :
    (∃ s, optStrV o = .str s) ∨ optStrV o = .null := by
  cases o with
  | some s => exact Or.inl ⟨s, rfl⟩
  | none => exact Or.inr rfl

open MakePlan in
/-- Evaluating `normalize_segment` on a re-serialized segment, given the
results of its fallible sub-steps. -/
theorem normalize_segment_toValue_eval (seg : NSegment) (idx2 : ℕ)
    (hdur : ¬ segDuration seg.toValue (seg_source_start seg.toValue) ≤ 0)
    (lab : String)
    (hlab : stripOr [seg.toValue.pyGet "label", seg.toValue.pyGet "title"] = .ok lab)
    (tin : Option Transition)
    (htin : normalize_transition (firstTruthyOrNull
      [seg.toValue.pyGet "transitionIn", seg.toValue.pyGet "transition_in",
       seg.toValue.pyGet "enterTransition"]) = .ok tin)
    (tout : Option Transition)
    (htout : normalize_transition (firstTruthyOrNull
      [seg.toValue.pyGet "transitionOut", seg.toValue.pyGet "transition_out",
       seg.toValue.pyGet "exitTransition"]) = .ok tout) :
    normalize_segment seg.toValue idx2 =
      .ok (some (build_nsegment seg.toValue idx2 (seg_source_start seg.toValue)
        (segDuration seg.toValue (seg_source_start seg.toValue)) lab tin tout)) := by
  have e_tv : seg.toValue = Value.obj
      [("id", .str seg.id), ("sourceStart", .num seg.sourceStart),
       ("duration", .num seg.duration), ("label", optStrV seg.label),
       ("title", optStrV seg.title), ("silenceAfter", .bool seg.silenceAfter),
       ("gapAfter", optBoolV seg.gapAfter),
       ("playbackRate", optNumV seg.playbackRate),
       ("transitionIn", match seg.transitionIn with
                        | some t => t.toValue
                        | none => .null),
       ("transitionOut", match seg.transitionOut with
                         | some t => t.toValue
                         | none => .null),
       ("cameraMovement", optStrV seg.cameraMovement),
       ("metadata", seg.metadata.getD .null)] := rfl
  rw [e_tv] at hdur hlab htin htout ⊢
  simp only [normalize_segment]
  rw [if_neg hdur]
  simp only [pure_bind]
  rw [hlab]
  simp only [Bind.bind, Except.bind]
  rw [htin]
  simp only [Bind.bind, Except.bind]
  rw [htout]
  simp only [Bind.bind, Except.bind]
  rfl

open MakePlan in
/-- C9 (amended): re-running `normalize_segment` on the serialized output of a
successful normalization succeeds again and preserves the segment id, source
start and duration, provided the duration is positive and the id nonempty.
(The spec claims idempotence of the whole normalizer; the counterexample shows
a zero-rounded duration breaks it, so positivity is the needed hypothesis.) -/
theorem C9_amended_renormalize_segment (raw : Value) (idx idx2 : ℕ) (t : ℚ)
    (seg : NSegment)
    (h : normalize_segment raw idx = .ok (some (t, seg)))
    (hpos : 0 < seg.duration) (hid : seg.id.isEmpty = false) :
    ∃ (t2 : ℚ) (seg2 : NSegment),
      normalize_segment seg.toValue idx2 = .ok (some (t2, seg2)) ∧
      seg2.id = seg.id ∧ seg2.sourceStart = seg.sourceStart ∧
      seg2.duration = seg.duration := by
  have h3 : round3 seg.sourceStart = seg.sourceStart ∧
      round3 seg.duration = seg.duration := by
    cases raw with
    | obj fs =>
        simp only [normalize_segment] at h
        by_cases hdur : segDuration (.obj fs) (seg_source_start (.obj fs)) ≤ 0
        · rw [if_pos hdur] at h
          simp [pure, Except.pure] at h
        · rw [if_neg hdur] at h
          simp only [pure_bind] at h
          obtain ⟨lab, hlab, h⟩ := except_bind_ok h
          obtain ⟨tin, htin, h⟩ := except_bind_ok h
          obtain ⟨tout, htout, h⟩ := except_bind_ok h
          have heq : some (build_nsegment (.obj fs) idx (seg_source_start (.obj fs))
              (segDuration (.obj fs) (seg_source_start (.obj fs))) lab tin tout) =
              some (t, seg) := by
            simpa [pure, Except.pure] using h
          have heq2 := Option.some.inj heq
          have hseg : seg = (build_nsegment (.obj fs) idx (seg_source_start (.obj fs))
              (segDuration (.obj fs) (seg_source_start (.obj fs))) lab tin tout).2 := by
            rw [heq2]
          constructor
          · rw [hseg]; simp only [build_nsegment]; exact round3_idem _
          · rw [hseg]; simp only [build_nsegment]; exact round3_idem _
    | null => simp [normalize_segment, pure, Except.pure] at h
    | bool b => simp [normalize_segment, pure, Except.pure] at h
    | num q => simp [normalize_segment, pure, Except.pure] at h
    | str s => simp [normalize_segment, pure, Except.pure] at h
    | arr l => simp [normalize_segment, pure, Except.pure] at h
  obtain ⟨h3s, h3d⟩ := h3
  have e_dur : seg.toValue.pyGet "duration" = .num seg.duration := rfl
  have hdur2 : segDuration seg.toValue (seg_source_start seg.toValue) = seg.duration := by
    unfold segDuration
    rw [e_dur]
    simp only [ensure_float]
    simp only [if_neg (not_le.mpr hpos)]
  have hnotle : ¬ segDuration seg.toValue (seg_source_start seg.toValue) ≤ 0 := by
    rw [hdur2]; exact not_le.mpr hpos
  obtain ⟨lab2, hlab2⟩ := stripOr_ok_of_strings
    [seg.toValue.pyGet "label", seg.toValue.pyGet "title"] (by
      intro v hv
      rcases List.mem_cons.mp hv with rfl | hv2
      · rw [show seg.toValue.pyGet "label" = optStrV seg.label from rfl]
        exact optStrV_str_or_null seg.label
      · simp only [List.mem_cons, List.not_mem_nil, or_false] at hv2
        rw [hv2, show seg.toValue.pyGet "title" = optStrV seg.title from rfl]
        exact optStrV_str_or_null seg.title)
  obtain ⟨tin2, htin2⟩ := normalize_transition_optValue_ok seg.transitionIn
  obtain ⟨tout2, htout2⟩ := normalize_transition_optValue_ok seg.transitionOut
  have htin2h : normalize_transition (firstTruthyOrNull
      [seg.toValue.pyGet "transitionIn", seg.toValue.pyGet "transition_in",
       seg.toValue.pyGet "enterTransition"]) = .ok tin2 := htin2
  have htout2h : normalize_transition (firstTruthyOrNull
      [seg.toValue.pyGet "transitionOut", seg.toValue.pyGet "transition_out",
       seg.toValue.pyGet "exitTransition"]) = .ok tout2 := htout2
  have heval := normalize_segment_toValue_eval seg idx2 hnotle lab2 hlab2 tin2 htin2h tout2 htout2h
  refine ⟨_, _, heval, ?_, ?_, ?_⟩
  · show (if (seg.toValue.pyGet "id").truthy then pyStrOfValue (seg.toValue.pyGet "id")
      else "segment-" ++ pad2 (idx2 + 1)) = seg.id
    rw [show seg.toValue.pyGet "id" = Value.str seg.id from rfl]
    simp [Value.truthy, hid, pyStrOfValue]
  · show round3 (seg_source_start seg.toValue) = seg.sourceStart
    rw [show seg_source_start seg.toValue = seg.sourceStart from rfl]
    exact h3s
  · show round3 (segDuration seg.toValue (seg_source_start seg.toValue)) = seg.duration
    rw [hdur2]
    exact h3d


open MakePlan in
/-- Witness for `C9_amended_renormalize_segment` on the concrete raw segment
`c9_raw`. -/
theorem C9_witness :
    ∃ (t2 : ℚ) (seg2 : NSegment),
      normalize_segment c9_seg.toValue 1 = .ok (some (t2, seg2)) ∧
      seg2.id = c9_seg.id ∧ seg2.sourceStart = c9_seg.sourceStart ∧
      seg2.duration = c9_seg.duration :=
  C9_amended_renormalize_segment c9_raw 0 1 0 c9_seg (by with_unfolding_all rfl)
    (show (0:ℚ) < 2 by norm_num) rfl


open EnrichPlan in
/-- C2: the spacing resolver sorts highlights by ascending start; a new
highlight that starts at or after the last accepted one end plus the gap
is accepted with the previous list untouched; otherwise the resolver first
tries to shrink the previous highlight duration to
`start - min_gap - prev_start` (stored rounded to 2 decimals, hence within
1/200 of that value) when that is at least `min_duration`; on the concrete
example (starts 10 and 12, durations 3, gap 0.2, min duration 0.6) the
first highlight duration becomes exactly 1.8 and both are kept. -/
theorem C2_spacing_resolver_step (mg md s d : ℚ) (current previous : Highlight)
    (rest : List Highlight)
    (hs : current.start = some s) (hd : current.duration = some d) (hmd : md ≤ d) :
    (∀ l : List Highlight,
      (sortByKey (fun h : Highlight => h.start.getD 0) l).Pairwise
        (fun a b => a.start.getD 0 ≤ b.start.getD 0)) ∧
    (previous.start.getD 0 + max md (previous.duration.getD md) + mg ≤ s →
      spacing_step mg md (previous :: rest) current =
        { current with start := some (round2 s), duration := some (round2 d) } ::
          previous :: rest) ∧
    (s < previous.start.getD 0 + max md (previous.duration.getD md) + mg →
      md ≤ s - mg - previous.start.getD 0 →
      spacing_resolve mg md s (max md d) (isSectionType current) (previous :: rest) =
        { previous with duration := some (round2 (s - mg - previous.start.getD 0)) } ::
          rest ∧
      s - mg - previous.start.getD 0 - 1/200 ≤ round2 (s - mg - previous.start.getD 0) ∧
      round2 (s - mg - previous.start.getD 0) ≤ s - mg - previous.start.getD 0 + 1/200) ∧
    ((enforce_highlight_spacing (1/5) (3/5) spacing_example).highlights.map
      (fun h => (h.id, h.start, h.duration)) =
      [(some "a", some (10:ℚ), some ((9:ℚ)/5)), (some "b", some (12:ℚ), some (3:ℚ))]) := by
  refine ⟨fun l => sortByKey_sorted _ l, ?_, ?_, by with_unfolding_all decide⟩
  · intro hge
    have hmax : max md d = d := max_eq_right hmd
    simp only [spacing_step, hs, hd, hmax]
    have hres : spacing_resolve mg md s d (isSectionType current) (previous :: rest) =
        previous :: rest := by
      simp only [spacing_resolve]
      rw [if_pos (by linarith)]
    rw [hres]
    have hkeep : ¬ s < previous.start.getD 0 + previous.duration.getD md + mg := by
      have hle : previous.duration.getD md ≤ max md (previous.duration.getD md) :=
        le_max_right _ _
      push_neg
      linarith
    simp [hkeep]
  · intro hlt havail
    refine ⟨?_, by linarith [round2_ge (s - mg - previous.start.getD 0)],
      by linarith [round2_le (s - mg - previous.start.getD 0)]⟩
    simp only [spacing_resolve]
    rw [if_neg (by linarith), if_pos havail]

open EnrichPlan in
/-- Witness for `C2_spacing_resolver_step` at the spec concrete example
(previous at 10 for 3s, current at 12 for 3s, gap 0.2, min duration 0.6). -/
theorem C2_witness :
    spacing_resolve (1/5) (3/5) 12 (max (3/5) 3) (isSectionType c2_cur) [c2_prev] =
      [{ c2_prev with duration := some (round2 (12 - 1/5 - c2_prev.start.getD 0)) }] :=
  ((C2_spacing_resolver_step (1/5) (3/5) 12 3 c2_cur c2_prev [] rfl rfl
      (by norm_num)).2.2.1
    (by with_unfolding_all decide) (by with_unfolding_all decide)).1


/-! ## The spacing invariant (C1, C5) -/

theorem round2_ge_threefifths (x : ℚ) (h : 3/5 ≤ x) : (3/5 : ℚ) ≤ round2 x := by
  have h60 : ((60 : ℤ) : ℚ)/100 ≤ x := by push_cast; linarith
  have h2 := round2_ge_cent 60 x h60
  push_cast at h2
  linarith

open EnrichPlan in
/-- The eviction loop preserves the spacing invariant of the (reversed)
accepted list. -/
theorem spacing_resolve_goodRev (s dur : ℚ) (cis : Bool) :
    ∀ acc : List Highlight,
    (∀ h ∈ acc, SpacedWF (3/5) h) →
    acc.Pairwise (fun a b => SpacedRel (1/5) (3/5) b a) →
    (∀ h ∈ spacing_resolve (1/5) (3/5) s dur cis acc, SpacedWF (3/5) h) ∧
    (spacing_resolve (1/5) (3/5) s dur cis acc).Pairwise
      (fun a b => SpacedRel (1/5) (3/5) b a) := by
  intro acc
  induction acc with
  | nil => intro h1 h2; simp [spacing_resolve]
  | cons previous rest ih =>
      intro hwf hpw
      have hwfp := hwf previous (List.mem_cons_self previous rest)
      have hwfr : ∀ h ∈ rest, SpacedWF (3/5) h :=
        fun h hm => hwf h (List.mem_cons_of_mem _ hm)
      rcases List.pairwise_cons.mp hpw with ⟨hrel, hpwr⟩
      simp only [spacing_resolve]
      split_ifs with h1 h2 h3 h4 h5 h6
      · exact ⟨hwf, hpw⟩
      · refine ⟨?_, ?_⟩
        · intro h hm
          rcases List.mem_cons.mp hm with rfl | hm2
          · rcases hwfp with ⟨⟨s0, hs0⟩, _⟩
            exact ⟨⟨s0, hs0⟩, ⟨_, rfl, round2_ge_threefifths _ h2⟩⟩
          · exact hwfr h hm2
        · refine List.pairwise_cons.mpr ⟨?_, hpwr⟩
          intro b hb
          simpa [SpacedRel] using hrel b hb
      · exact ih hwfr hpwr
      · exact ⟨hwf, hpw⟩
      · refine ⟨?_, ?_⟩
        · intro h hm
          rcases List.mem_cons.mp hm with rfl | hm2
          · rcases hwfp with ⟨⟨s0, hs0⟩, _⟩
            exact ⟨⟨s0, hs0⟩, ⟨_, rfl, round2_ge_threefifths _ (le_max_left _ _)⟩⟩
          · exact hwfr h hm2
        · refine List.pairwise_cons.mpr ⟨?_, hpwr⟩
          intro b hb
          simpa [SpacedRel] using hrel b hb
      · exact ih hwfr hpwr
      · exact ⟨hwf, hpw⟩

open EnrichPlan in
/-- One step of the accepting loop preserves the spacing invariant of the
(reversed) accepted list. -/
theorem spacing_step_goodRev (cur : Highlight) (acc : List Highlight)
    (hwf : ∀ h ∈ acc, SpacedWF (3/5) h)
    (hpw : acc.Pairwise (fun a b => SpacedRel (1/5) (3/5) b a)) :
    (∀ h ∈ spacing_step (1/5) (3/5) acc cur, SpacedWF (3/5) h) ∧
    (spacing_step (1/5) (3/5) acc cur).Pairwise
      (fun a b => SpacedRel (1/5) (3/5) b a) := by
  rcases hcs : cur.start with _ | s
  · simpa [spacing_step, hcs] using And.intro hwf hpw
  rcases hcd : cur.duration with _ | d
  · simpa [spacing_step, hcs, hcd] using And.intro hwf hpw
  obtain ⟨hwf2, hpw2⟩ := spacing_resolve_goodRev s (max (3/5) d) (isSectionType cur) acc hwf hpw
  simp only [spacing_step, hcs, hcd]
  cases hres : spacing_resolve (1/5) (3/5) s (max (3/5) d) (isSectionType cur) acc with
  | nil =>
      simp only
      refine ⟨?_, ?_⟩
      · intro h hm
        rcases List.mem_cons.mp hm with rfl | hm2
        · exact ⟨⟨_, rfl⟩, ⟨_, rfl, round2_ge_threefifths _ (le_max_left _ _)⟩⟩
        · exact absurd hm2 (List.not_mem_nil h)
      · simp
  | cons prev rest2 =>
      rw [hres] at hwf2 hpw2
      have hwfprev := hwf2 prev (List.mem_cons_self prev rest2)
      rcases List.pairwise_cons.mp hpw2 with ⟨hrel2, hpwr2⟩
      by_cases hkeep : s < prev.start.getD 0 + prev.duration.getD (3/5) + 1/5
      · simp only [hkeep, decide_eq_true_eq, Bool.not_true, if_neg]
        exact ⟨hwf2, hpw2⟩
      · push_neg at hkeep
        simp only [decide_eq_true_eq]
        rw [if_pos (by simpa using hkeep)]
        rcases hwfprev with ⟨⟨sp, hsp⟩, ⟨qp, hqp, hqp35⟩⟩
        have hdurp : prev.duration.getD (3/5) = qp := by rw [hqp]; rfl
        have hr2 := round2_ge s
        refine ⟨?_, ?_⟩
        · intro h hm
          rcases List.mem_cons.mp hm with rfl | hm2
          · exact ⟨⟨_, rfl⟩, ⟨_, rfl, round2_ge_threefifths _ (le_max_left _ _)⟩⟩
          · exact hwf2 h hm2
        · refine List.pairwise_cons.mpr ⟨?_, hpw2⟩
          intro b hb
          rcases List.mem_cons.mp hb with rfl | hb2
          · show SpacedRel (1/5) (3/5) b _
            unfold SpacedRel
            simp only [Option.getD_some]
            rw [hdurp] at hkeep ⊢
            linarith
          · have hrb := hrel2 b hb2
            unfold SpacedRel at hrb ⊢
            simp only [Option.getD_some]
            rw [hdurp] at hkeep
            have hb35 : (3/5 : ℚ) ≤ b.duration.getD (3/5) := by
              rcases hwf2 b (List.mem_cons_of_mem _ hb2) with ⟨_, ⟨qb, hqb, h35⟩⟩
              rw [hqb]; simpa using h35
            linarith


open EnrichPlan in
/-- The whole accepting fold preserves the spacing invariant. -/
theorem spacing_fold_goodRev (l : List Highlight) :
    ∀ acc : List Highlight,
    (∀ h ∈ acc, SpacedWF (3/5) h) →
    acc.Pairwise (fun a b => SpacedRel (1/5) (3/5) b a) →
    (∀ h ∈ l.foldl (spacing_step (1/5) (3/5)) acc, SpacedWF (3/5) h) ∧
    (l.foldl (spacing_step (1/5) (3/5)) acc).Pairwise
      (fun a b => SpacedRel (1/5) (3/5) b a) := by
  induction l with
  | nil => exact fun acc h1 h2 => ⟨h1, h2⟩
  | cons x xs ih =>
      intro acc h1 h2
      rw [List.foldl_cons]
      obtain ⟨g1, g2⟩ := spacing_step_goodRev x acc h1 h2
      exact ih _ g1 g2

open EnrichPlan in
/-- The spacing pass establishes the spacing invariant. -/
theorem enforce_spacing_good (mg md : ℚ) (p : Plan) (hmg : mg = 1/5) (hmd : md = 3/5) :
    GoodSpacing (1/5) (3/5) (enforce_highlight_spacing mg md p).highlights := by
  subst hmg hmd
  unfold enforce_highlight_spacing
  split_ifs with h
  · rw [List.isEmpty_iff] at h
    rw [h]
    exact ⟨fun x hx => absurd hx (List.not_mem_nil x), List.Pairwise.nil⟩
  · dsimp only
    obtain ⟨g1, g2⟩ := spacing_fold_goodRev
      (sortByKey (fun (h : Highlight) => h.start.getD 0) p.highlights) []
      (fun x hx => absurd hx (List.not_mem_nil x)) List.Pairwise.nil
    refine ⟨?_, ?_⟩
    · intro x hx
      exact g1 x (List.mem_reverse.mp hx)
    · exact List.pairwise_reverse.mpr g2

open EnrichPlan in
/-- The spacing invariant forces weakly increasing starts. -/
theorem good_sorted (l : List Highlight) (hg : GoodSpacing (1/5) (3/5) l) :
    l.Pairwise (fun a b => a.start.getD 0 ≤ b.start.getD 0) := by
  rcases hg with ⟨hwf, hpw⟩
  refine hpw.imp_of_mem ?_
  intro a b ha hb hr
  rcases hwf a ha with ⟨_, ⟨qa, hqa, h35⟩⟩
  unfold SpacedRel at hr
  rw [hqa] at hr
  simp only [Option.getD_some] at hr
  linarith

open EnrichPlan in
/-- The spacing invariant survives taking a sublist. -/
theorem good_sublist {l s : List Highlight} (hs : s.Sublist l)
    (hg : GoodSpacing (1/5) (3/5) l) : GoodSpacing (1/5) (3/5) s :=
  ⟨fun h hm => hg.1 h (hs.subset hm), hg.2.sublist hs⟩

open EnrichPlan in
/-- A filter of an invariant-satisfying list, re-sorted by start, still
satisfies the invariant (the sort is the identity there). -/
theorem good_filter_sort (f : Highlight → Bool) (l : List Highlight)
    (hg : GoodSpacing (1/5) (3/5) l) :
    GoodSpacing (1/5) (3/5)
      (sortByKey (fun h : Highlight => h.start.getD 0) (l.filter f)) := by
  have hg2 : GoodSpacing (1/5) (3/5) (l.filter f) :=
    good_sublist (List.filter_sublist l) hg
  rw [sortByKey_eq_self _ _ (good_sorted _ hg2)]
  exact hg2

open EnrichPlan in
/-- Pruning preserves the spacing invariant. -/
theorem prune_good (m : ℕ) (p : Plan) (hg : GoodSpacing (1/5) (3/5) p.highlights) :
    GoodSpacing (1/5) (3/5) (prune_highlights m p).highlights := by
  unfold prune_highlights
  split_ifs with h
  · exact hg
  · exact good_filter_sort _ _ hg

open EnrichPlan in
/-- Trimming preserves the spacing invariant. -/
theorem trim_good (margin : ℚ) (p : Plan) (hg : GoodSpacing (1/5) (3/5) p.highlights) :
    GoodSpacing (1/5) (3/5) (trim_highlights_to_segments margin p).highlights := by
  unfold trim_highlights_to_segments
  split_ifs with h
  · exact hg
  · exact good_filter_sort _ _ hg

open EnrichPlan in
/-- The B-roll pass does not touch the highlight list. -/
theorem broll_highlights_eq (bc : Option BrollCatalog) (p : Plan) :
    (ensure_broll_from_highlights bc p).highlights = p.highlights := by
  cases bc with
  | none => rfl
  | some cat =>
      simp only [ensure_broll_from_highlights]
      split_ifs <;> rfl

open EnrichPlan in
/-- The motion pass does not touch the highlight list. -/
theorem motion_highlights_eq (mr : Option MotionRules) (p : Plan) :
    (ensure_motion_from_highlights mr p).highlights = p.highlights := by
  unfold ensure_motion_from_highlights
  split_ifs <;> rfl

open EnrichPlan in
/-- The SFX pass keeps every highlight timing. -/
theorem sfx_proj_eq (sc : Option SfxCatalog) (p : Plan) :
    (ensure_highlight_sfx sc p).highlights.map hlProj = p.highlights.map hlProj := by
  unfold ensure_highlight_sfx
  split_ifs with h
  · rfl
  · dsimp only
    rw [List.map_map]
    refine List.map_congr_left ?_
    intro x hx
    show hlProj _ = hlProj x
    dsimp only
    split_ifs with h1 h2
    · rfl
    · rfl
    · cases HIGHLIGHT_SFX_RULES.find? _ with
      | none => rfl
      | some rule => rfl

open EnrichPlan in
/-- The SFX-stripping pass keeps every highlight timing. -/
theorem strip_proj_eq (p : Plan) :
    (strip_non_section_sfx p).highlights.map hlProj = p.highlights.map hlProj := by
  unfold strip_non_section_sfx
  dsimp only
  rw [List.map_map]
  refine List.map_congr_left ?_
  intro x hx
  show hlProj _ = hlProj x
  dsimp only
  split_ifs <;> rfl

open EnrichPlan in
/-- The spacing invariant only depends on timing projections. -/
theorem good_of_proj_eq :
    ∀ (l t : List Highlight), t.map hlProj = l.map hlProj →
      GoodSpacing (1/5) (3/5) l → GoodSpacing (1/5) (3/5) t := by
  intro l
  induction l with
  | nil =>
      intro t hm _
      rw [List.map_nil, List.map_eq_nil_iff] at hm
      rw [hm]
      exact ⟨fun x hx => absurd hx (List.not_mem_nil x), List.Pairwise.nil⟩
  | cons x xs ih =>
      intro t hm hg
      cases t with
      | nil => simp at hm
      | cons y ys =>
          simp only [List.map_cons, List.cons.injEq] at hm
          obtain ⟨hxy, hys⟩ := hm
          have hy1 : y.start = x.start := congrArg Prod.fst hxy
          have hy2 : y.duration = x.duration := congrArg Prod.snd hxy
          obtain ⟨hg1, hg2⟩ := hg
          rcases List.pairwise_cons.mp hg2 with ⟨hx, hxs⟩
          have ihg : GoodSpacing (1/5) (3/5) ys :=
            ih ys hys ⟨fun h hm2 => hg1 h (List.mem_cons_of_mem _ hm2), hxs⟩
          refine ⟨?_, ?_⟩
          · intro h hm2
            rcases List.mem_cons.mp hm2 with rfl | hm3
            · rcases hg1 x (List.mem_cons_self x xs) with ⟨⟨s0, hs0⟩, ⟨q0, hq0, hle⟩⟩
              exact ⟨⟨s0, by rw [hy1, hs0]⟩, ⟨q0, by rw [hy2, hq0], hle⟩⟩
            · exact ihg.1 h hm3
          · refine List.pairwise_cons.mpr ⟨?_, ihg.2⟩
            intro b hb
            have hmemb : hlProj b ∈ xs.map hlProj := by
              rw [← hys]
              exact List.mem_map_of_mem _ hb
            rcases List.mem_map.mp hmemb with ⟨a, ha, hab⟩
            have hra := hx a ha
            unfold SpacedRel at hra ⊢
            rw [hy1, hy2]
            have hb1 : b.start = a.start := (congrArg Prod.fst hab).symm
            rw [hb1]
            exact hra

open EnrichPlan in
/-- All passes after the spacing resolver keep the spacing invariant. -/
theorem good_post_spacing (bc : Option BrollCatalog) (sc : Option SfxCatalog)
    (mr : Option MotionRules) (p : Plan) :
    GoodSpacing (1/5) (3/5) (post_spacing_passes bc sc mr p).highlights := by
  unfold post_spacing_passes
  have g0 := enforce_spacing_good (1/5) (3/5) p rfl rfl
  have g1 := prune_good MAX_TOTAL_HIGHLIGHTS _ g0
  have g2 := trim_good (1/4) _ g1
  have g3 : GoodSpacing (1/5) (3/5)
      (ensure_broll_from_highlights bc
        (trim_highlights_to_segments (1/4)
          (prune_highlights MAX_TOTAL_HIGHLIGHTS
            (enforce_highlight_spacing (1/5) (3/5) p)))).highlights := by
    rw [broll_highlights_eq]
    exact g2
  have g4 : GoodSpacing (1/5) (3/5)
      (ensure_motion_from_highlights mr
        (ensure_broll_from_highlights bc
          (trim_highlights_to_segments (1/4)
            (prune_highlights MAX_TOTAL_HIGHLIGHTS
              (enforce_highlight_spacing (1/5) (3/5) p))))).highlights := by
    rw [motion_highlights_eq]
    exact g3
  have g5 := good_of_proj_eq _ _ (sfx_proj_eq sc _) g4
  exact good_of_proj_eq _ _ (strip_proj_eq _) g5


open EnrichPlan in
/-- C1: in the output of the spacing resolver followed by all later pipeline
passes (pruning, trimming, B-roll, motion, SFX assignment and stripping),
every highlight has numeric timing with duration at least the 0.6s minimum,
and any two distinct highlights A, B with A.start ≤ B.start satisfy
`B.start ≥ A.start + A.duration + 0.2 - 1/200` (the half-cent slack covering
the 2-decimal rounding of start and duration). -/
theorem C1_spacing_invariant (bc : Option BrollCatalog) (sc : Option SfxCatalog)
    (mr : Option MotionRules) (p : Plan) :
    (∀ h ∈ (post_spacing_passes bc sc mr p).highlights,
      (∃ s, h.start = some s) ∧ ∃ q, h.duration = some q ∧ 3/5 ≤ q) ∧
    ∀ A ∈ (post_spacing_passes bc sc mr p).highlights,
    ∀ B ∈ (post_spacing_passes bc sc mr p).highlights,
      A ≠ B → A.start.getD 0 ≤ B.start.getD 0 →
      A.start.getD 0 + A.duration.getD (3/5) + 1/5 - 1/200 ≤ B.start.getD 0 := by
  obtain ⟨hwf, hpw⟩ := good_post_spacing bc sc mr p
  refine ⟨fun h hm => hwf h hm, ?_⟩
  intro A hA B hB hne hle
  have hsym : (post_spacing_passes bc sc mr p).highlights.Pairwise
      (fun a b => SpacedRel (1/5) (3/5) a b ∨ SpacedRel (1/5) (3/5) b a) :=
    hpw.imp Or.inl
  have hor := hsym.forall (fun a b hab => hab.symm) hA hB hne
  rcases hor with hr | hr
  · exact hr
  · rcases hwf B hB with ⟨_, ⟨qb, hqb, h35⟩⟩
    unfold SpacedRel at hr
    rw [hqb] at hr
    simp only [Option.getD_some] at hr
    linarith

open EnrichPlan in
/-- Witness for `C1_spacing_invariant` at the two-highlight example: in the
final output the first highlight (shrunk to 1.8s) and the second obey the
spacing inequality. -/
theorem C1_witness :
    (mkHighlight (some "a") (some "noteBox") (some 10) (some (9/5))
        (some "Budget Report")).start.getD 0 +
      (mkHighlight (some "a") (some "noteBox") (some 10) (some (9/5))
        (some "Budget Report")).duration.getD (3/5) + 1/5 - 1/200 ≤
      (mkHighlight (some "b") (some "noteBox") (some 12) (some 3)
        (some "Second Topic")).start.getD 0 :=
  (C1_spacing_invariant none none none spacing_example).2
    (mkHighlight (some "a") (some "noteBox") (some 10) (some (9/5)) (some "Budget Report"))
    (by with_unfolding_all decide)
    (mkHighlight (some "b") (some "noteBox") (some 12) (some 3) (some "Second Topic"))
    (by with_unfolding_all decide)
    (by with_unfolding_all decide)
    (by with_unfolding_all decide)


/-! ## C5: duration bounds -/

open MakePlan in
/-- The normalizer clamps every highlight duration into [1.5, 5] before
rounding. -/
theorem hl_timing_duration_bounds (raw : Value) (e : Option SrtEntry) :
    3/2 ≤ (hl_timing raw e).2 ∧ (hl_timing raw e).2 ≤ 5 := by
  unfold hl_timing
  cases e <;> dsimp only <;> split_ifs <;>
    exact ⟨le_max_left _ _, max_le (by norm_num) (min_le_right _ _)⟩

open MakePlan in
/-- A built highlight stores the rounded clamped duration. -/
theorem build_highlight_duration (lookupSfx : List (String × String)) (raw : Value)
    (hid : String) (st : RawHlStrings) (e : Option SrtEntry)
    (rtype : Option String) (pos : String) (asset side : String) (h : NHighlight)
    (hb : build_highlight lookupSfx raw hid st e rtype pos asset side = some h) :
    h.duration = round3 (hl_timing raw e).2 := by
  unfold build_highlight at hb
  split_ifs at hb with h1
  rw [← Option.some.inj hb]
  rfl

open MakePlan in
/-- Every highlight surviving `normalize_highlight_item` has duration in
[1.5, 5]. -/
theorem nhl_duration_bounds (lookupSfx : List (String × String))
    (srt : List SrtEntry) (raw : Value) (idx : ℕ) (h : NHighlight)
    (hok : normalize_highlight_item lookupSfx srt raw idx = .ok (some h)) :
    3/2 ≤ h.duration ∧ h.duration ≤ 5 := by
  have hdur : h.duration = round3 (hl_timing raw (hl_srt_entry srt (hl_id raw idx))).2 := by
    cases raw with
    | obj fs =>
        simp only [normalize_highlight_item] at hok
        obtain ⟨st, hst, hok⟩ := except_bind_ok hok
        split_ifs at hok
        all_goals
          first
            | (simp only [pure_bind] at hok
               obtain ⟨pos0, hpos, hok⟩ := except_bind_ok hok
               try simp only [pure_bind] at hok
               obtain ⟨as2, has2, hok⟩ := except_bind_ok hok
               exact build_highlight_duration _ _ _ _ _ _ _ _ _ _ (Except.ok.inj hok))
            | (simp only [pure_bind] at hok
               obtain ⟨pos0, hpos, hok⟩ := except_bind_ok hok
               exact Option.noConfusion (Except.ok.inj hok))
            | simp [pure, Except.pure] at hok
    | null => simp [normalize_highlight_item, pure, Except.pure] at hok
    | bool b => simp [normalize_highlight_item, pure, Except.pure] at hok
    | num q => simp [normalize_highlight_item, pure, Except.pure] at hok
    | str s2 => simp [normalize_highlight_item, pure, Except.pure] at hok
    | arr l => simp [normalize_highlight_item, pure, Except.pure] at hok
  obtain ⟨hlo, hhi⟩ := hl_timing_duration_bounds raw (hl_srt_entry srt (hl_id raw idx))
  rw [hdur]
  constructor
  · have hc : ((1500 : ℤ) : ℚ)/1000 ≤ (hl_timing raw (hl_srt_entry srt (hl_id raw idx))).2 := by
      push_cast
      linarith
    have h2 := round3_ge_mil 1500 _ hc
    push_cast at h2
    linarith
  · have hc : (hl_timing raw (hl_srt_entry srt (hl_id raw idx))).2 ≤ ((5000 : ℤ) : ℚ)/1000 := by
      push_cast
      linarith
    have h2 := round3_le_mil 5000 _ hc
    push_cast at h2
    linarith

theorem round3_clamp_bounds (x : ℚ) :
    1/10 ≤ round3 (max (1/10) (min x 3)) ∧ round3 (max (1/10) (min x 3)) ≤ 3 := by
  constructor
  · have hc : ((100 : ℤ) : ℚ)/1000 ≤ max (1/10) (min x 3) := by
      have := le_max_left (1/10 : ℚ) (min x 3)
      push_cast
      linarith
    have h2 := round3_ge_mil 100 _ hc
    push_cast at h2
    linarith
  · have hc : max (1/10) (min x 3) ≤ ((3000 : ℤ) : ℚ)/1000 := by
      have := max_le (by norm_num : (1/10 : ℚ) ≤ 3) (min_le_right x 3)
      push_cast
      linarith
    have h2 := round3_le_mil 3000 _ hc
    push_cast at h2
    linarith

open MakePlan in
/-- Every numeric transition duration produced by the core normalizer is in
[0.1, 3]. -/
theorem transition_core_duration_bounds (t0 : String) (dir : Option String)
    (dur inten : Option ℚ) (t : Transition) (q : ℚ)
    (hc : normalizeTransitionCore t0 dir dur inten = some t)
    (hq : t.duration = some q) : 1/10 ≤ q ∧ q ≤ 3 := by
  unfold normalizeTransitionCore at hc
  dsimp only at hc
  split_ifs at hc <;>
    (rw [← Option.some.inj hc] at hq
     dsimp only at hq) <;>
    first
      | exact Option.noConfusion hq
      | (rw [← Option.some.inj hq]
         exact round3_clamp_bounds _)
open MakePlan in
/-- Every numeric transition duration in the output of
`normalize_transition` is in [0.1, 3]. -/
theorem normalize_transition_duration_bounds (v : Value) (t : Transition) (q : ℚ)
    (h : normalize_transition v = .ok (some t)) (hq : t.duration = some q) :
    1/10 ≤ q ∧ q ≤ 3 := by
  cases v with
  | null => simp [normalize_transition] at h
  | str s => exact transition_core_duration_bounds _ _ _ _ _ _ (Except.ok.inj h) hq
  | obj fs =>
      simp only [normalize_transition] at h
      obtain ⟨a, ha, h⟩ := except_bind_ok h
      obtain ⟨b, hb2, h⟩ := except_bind_ok h
      exact transition_core_duration_bounds _ _ _ _ _ _ (Except.ok.inj h) hq
  | bool b => simp [normalize_transition] at h
  | num q2 => simp [normalize_transition] at h
  | arr l => simp [normalize_transition] at h

open EnrichPlan in
/-- C5 counterexample: on a plan with two overlapping 3-second `noteBox`
highlights at 10s and 11s over a 100s segment, the pipeline tail shrinks
the first one to 0.8s, below the claimed 1.5s lower bound for textual
highlights. -/
theorem C5_counterexample :
    ((post_spacing_passes none none none short_trim_example).highlights.map
      (fun h => (h.type, h.duration))) =
      [(some "noteBox", some (4/5)), (some "noteBox", some 3)] ∧
    ¬((3/2 : ℚ) ≤ 4/5) := by
  constructor
  · with_unfolding_all decide
  · norm_num

open MakePlan EnrichPlan in
/-- C5 (amended): the [0.1, 3] transition bound and the [1.5, 5] highlight
bound hold after schema normalization, but the spacing resolver may later
shrink a highlight below 1.5s; the bound that survives the full pipeline
tail is the 0.6s minimum duration. -/
theorem C5_amended_duration_bounds :
    (∀ (v : Value) (t : Transition) (q : ℚ),
      normalize_transition v = .ok (some t) → t.duration = some q →
      1/10 ≤ q ∧ q ≤ 3) ∧
    (∀ (lookupSfx : List (String × String)) (srt : List SrtEntry) (raw : Value)
       (idx : ℕ) (h : NHighlight),
      normalize_highlight_item lookupSfx srt raw idx = .ok (some h) →
      3/2 ≤ h.duration ∧ h.duration ≤ 5) ∧
    (∀ (bc : Option BrollCatalog) (sc : Option SfxCatalog) (mr : Option MotionRules)
       (p : Plan) (h : EnrichPlan.Highlight),
      h ∈ (post_spacing_passes bc sc mr p).highlights →
      ∃ q, h.duration = some q ∧ 3/5 ≤ q) :=
  ⟨fun v t q h hq => normalize_transition_duration_bounds v t q h hq,
   fun lk srt raw idx h hok => nhl_duration_bounds lk srt raw idx h hok,
   fun bc sc mr p h hm => ((good_post_spacing bc sc mr p).1 h hm).2⟩

open MakePlan EnrichPlan in
/-- Witness for `C5_amended_duration_bounds`: a fade transition of raw
duration 10 is clamped to 3, and the shrunk 0.8s highlight of the
counterexample still satisfies the 0.6s floor. -/
theorem C5_witness :
    ((1/10 : ℚ) ≤ 3 ∧ (3 : ℚ) ≤ 3) ∧
    ∃ q, (mkHighlight (some "a") (some "noteBox") (some 10) (some (4/5))
      (some "Budget Report")).duration = some q ∧ 3/5 ≤ q :=
  ⟨C5_amended_duration_bounds.1 (.obj [("type", .str "fade"), ("duration", .num 10)])
      { type := "crossfade", duration := some 3, direction := none, intensity := none } 3
      (by with_unfolding_all rfl) rfl,
   C5_amended_duration_bounds.2.2 none none none short_trim_example
      (mkHighlight (some "a") (some "noteBox") (some 10) (some (4/5)) (some "Budget Report"))
      (by with_unfolding_all decide)⟩



/-! ## C7: motion cues -/

open EnrichPlan in
/-- The motion value decided inside `ensure_motion_from_highlights` is
always `zoomIn` or `zoomOut`. -/
theorem motion_choice_allowed (imp : Option String) (zoh : Bool) (ct ah : String)
    (ec lm : Option String) :
    motion_choice imp zoh ct ah ec lm = "zoomIn" ∨
    motion_choice imp zoh ct ah ec lm = "zoomOut" := by
  unfold motion_choice
  cases ec with
  | none => dsimp only; split_ifs <;> simp_all [ALLOWED_MOTIONS]
  | some c => dsimp only; split_ifs <;> simp_all [ALLOWED_MOTIONS]

open EnrichPlan in
/-- Invariant of the motion loop: every output cue is an input cue of some
segment or one of the two allowed zoom values. -/
theorem motion_loop_cues (zoKw : List String) (maxm : ℤ) :
    ∀ (l : List Highlight) (segs : List Segment) (assigned : ℤ) (lm : Option String),
    ∀ seg ∈ motion_loop zoKw maxm segs assigned lm l,
      (∃ seg0 ∈ segs, seg.motionCue = seg0.motionCue) ∨
      seg.motionCue = some "zoomIn" ∨ seg.motionCue = some "zoomOut" := by
  intro l
  induction l with
  | nil =>
      intro segs assigned lm seg hm
      rw [motion_loop] at hm
      exact Or.inl ⟨seg, hm, rfl⟩
  | cons h rest ih =>
      intro segs assigned lm seg hm
      rw [motion_loop] at hm
      cases hstart : h.start with
      | none =>
          rw [hstart] at hm
          dsimp only at hm
          exact ih segs assigned lm seg hm
      | some s =>
          rw [hstart] at hm
          dsimp only at hm
          cases hloc : locate_segment segs s with
          | none =>
              rw [hloc] at hm
              dsimp only at hm
              exact ih segs assigned lm seg hm
          | some e =>
              rw [hloc] at hm
              dsimp only at hm
              split_ifs at hm
              all_goals
                first
                  | exact Or.inl ⟨seg, hm, rfl⟩
                  | exact ih segs assigned lm seg hm
                  | (rcases ih _ _ _ seg hm with ⟨seg0, hmem0, hcue⟩ | hrest
                     · rcases List.mem_or_eq_of_mem_set hmem0 with hx | hx
                       · exact Or.inl ⟨seg0, hx, hcue⟩
                       · rw [hx] at hcue
                         dsimp only at hcue
                         obtain ⟨m, hm2, hall⟩ :
                             ∃ m, seg.motionCue = some m ∧
                               (m = "zoomIn" ∨ m = "zoomOut") :=
                           ⟨_, hcue, motion_choice_allowed _ _ _ _ _ _⟩
                         rcases hall with h1 | h1
                         · exact Or.inr (Or.inl (by rw [hm2, h1]))
                         · exact Or.inr (Or.inr (by rw [hm2, h1]))
                     · exact Or.inr hrest)

open EnrichPlan in
/-- C7 counterexample: the scored per-segment selection of `enrich_plan` can
write the cue `pan`, which is not one of the two claimed zoom values. -/
theorem C7_counterexample :
    ((enrich_pipeline pan_scene none none (some pan_rules) (3/2) pan_plan).segments.map
      (fun s => s.motionCue)) = [some "pan"] ∧
    ¬("pan" ∈ ALLOWED_MOTIONS) := by
  constructor
  · with_unfolding_all decide
  · decide

open EnrichPlan in
/-- C7 (amended): the highlight-driven motion pass
(`ensure_motion_from_highlights`) only writes the two allowed zoom cues: in
its output every segment either keeps the cue of an input segment or
carries `zoomIn` or `zoomOut`.  (The scored per-segment selection of
`enrich_plan` can still write `pan`, as the counterexample shows.) -/
theorem C7_amended_motion_cues (mr : Option MotionRules) (p : Plan) :
    ∀ seg ∈ (ensure_motion_from_highlights mr p).segments,
      (∃ seg0 ∈ p.segments, seg.motionCue = seg0.motionCue) ∨
      seg.motionCue = some "zoomIn" ∨ seg.motionCue = some "zoomOut" := by
  intro seg hm
  unfold ensure_motion_from_highlights at hm
  split_ifs at hm with h
  · exact Or.inl ⟨seg, hm, rfl⟩
  · exact motion_loop_cues _ _ _ _ _ _ seg hm

open EnrichPlan in
/-- Witness for `C7_amended_motion_cues` on a one-segment plan whose
covering highlight receives a `zoomIn` cue. -/
theorem C7_witness :
    (∃ seg0 ∈ c7_plan.segments,
      (Segment.mk (some "s1") (some 0) (some 6) none none none none
        (some "zoomIn") ["Motion cue: zoomIn emphasises \"5 tips\"."]
        none).motionCue = seg0.motionCue) ∨
    (Segment.mk (some "s1") (some 0) (some 6) none none none none
      (some "zoomIn") ["Motion cue: zoomIn emphasises \"5 tips\"."]
      none).motionCue = some "zoomIn" ∨
    (Segment.mk (some "s1") (some 0) (some 6) none none none none
      (some "zoomIn") ["Motion cue: zoomIn emphasises \"5 tips\"."]
      none).motionCue = some "zoomOut" :=
  C7_amended_motion_cues none c7_plan
    (Segment.mk (some "s1") (some 0) (some 6) none none none none
      (some "zoomIn") ["Motion cue: zoomIn emphasises \"5 tips\"."] none)
    (by with_unfolding_all decide)


/-! ## C6: B-roll reuse -/

open EnrichPlan in
/-- A chosen candidate really is the catalog item with that id and is under
the reuse quota. -/
theorem choose_broll_step_spec (items : List CatalogItem) (counts : String → ℕ)
    (acc : Option (String × CatalogItem)) (cid0 : String)
    (hacc : ∀ c it, acc = some (c, it) →
      it.id = some c ∧ counts c < MAX_BROLL_REUSE) :
    ∀ c it, choose_broll_step items counts acc cid0 = some (c, it) →
      it.id = some c ∧ counts c < MAX_BROLL_REUSE := by
  intro c it h
  unfold choose_broll_step at h
  cases acc with
  | some c2 => exact hacc c it h
  | none =>
      cases hlast : (items.filter (fun it2 => it2.id == some cid0)).getLast? with
      | none => rw [hlast] at h; exact Option.noConfusion h
      | some item2 =>
          rw [hlast] at h
          dsimp only at h
          split_ifs at h with h1 h2
          have hpair := Option.some.inj h
          have hc : c = cid0 := (congrArg Prod.fst hpair).symm
          have hit : it = item2 := (congrArg Prod.snd hpair).symm
          have hmem : item2 ∈ items.filter (fun it2 => it2.id == some cid0) := by
            have hx : item2 ∈ (items.filter (fun it2 => it2.id == some cid0)).getLast? :=
              Option.mem_def.mpr hlast
            rcases List.mem_getLast?_eq_getLast hx with ⟨hne, heq⟩
            rw [heq]
            exact List.getLast_mem hne
          have hid : (item2.id == some cid0) = true := (List.mem_filter.mp hmem).2
          subst hc hit
          exact ⟨eq_of_beq hid, lt_of_not_le h2⟩

open EnrichPlan in
/-- `choose_broll_candidate` only returns an in-catalog candidate whose
reuse count is still under the quota. -/
theorem choose_broll_candidate_spec (items : List CatalogItem) (counts : String → ℕ)
    (cands : List String) (cid : String) (item : CatalogItem)
    (h : choose_broll_candidate items counts cands = some (cid, item)) :
    item.id = some cid ∧ counts cid < MAX_BROLL_REUSE := by
  unfold choose_broll_candidate at h
  revert h
  generalize sortByKey (fun (cid : String) => toLex (counts cid, cid)) cands = l
  have H : ∀ (l2 : List String) (acc : Option (String × CatalogItem)),
      (∀ c it, acc = some (c, it) → it.id = some c ∧ counts c < MAX_BROLL_REUSE) →
      ∀ c it, l2.foldl (choose_broll_step items counts) acc = some (c, it) →
        it.id = some c ∧ counts c < MAX_BROLL_REUSE := by
    intro l2
    induction l2 with
    | nil => intro acc hacc c it h; exact hacc c it h
    | cons x xs ih =>
        intro acc hacc c it h
        rw [List.foldl_cons] at h
        exact ih _ (choose_broll_step_spec items counts acc x hacc) c it h
  exact fun h => H l none (by intro c it hc; exact absurd hc (by simp)) cid item h

open EnrichPlan in
/-- `locate_segment` returns an index/segment pair of the list. -/
theorem locate_segment_get? (segs : List Segment) (t : ℚ) (e : ℕ × Segment)
    (h : locate_segment segs t = some e) : segs.get? e.1 = some e.2 := by
  unfold locate_segment at h
  have hmem := List.mem_of_find?_eq_some h
  rcases e with ⟨i, sg⟩
  exact (List.mem_enum_iff_get?.mp hmem)

open EnrichPlan in
/-- Replacing an unassigned segment adds at most the new segment to any
per-id assignment count. -/
theorem broll_count_set_le (segs : List Segment) (idx : ℕ) (old new2 : Segment)
    (cid : String) (hget : segs.get? idx = some old) (hold : old.broll = none) :
    broll_count (segs.set idx new2) cid ≤ broll_count segs cid +
      (if (match new2.broll with
           | some b => b.id == some cid
           | none => false) then 1 else 0) := by
  induction segs generalizing idx with
  | nil => simp at hget
  | cons x xs ih =>
      cases idx with
      | zero =>
          have hx : x = old := by simpa using hget
          subst hx
          simp only [List.set]
          unfold broll_count
          simp only [List.filter]
          rw [hold]
          dsimp only
          cases hfn : (match new2.broll with
                       | some b => b.id == some cid
                       | none => false) with
          | true => simp [hfn]
          | false => simp [hfn]
      | succ n =>
          have hget2 : xs.get? n = some old := by simpa using hget
          have ih2 := ih n hget2
          simp only [List.set]
          unfold broll_count at ih2 ⊢
          simp only [List.filter]
          cases hfx : (match x.broll with
                       | some b => b.id == some cid
                       | none => false) with
          | true =>
              dsimp only
              simp only [List.length_cons]
              rw [Nat.add_right_comm]
              exact Nat.add_le_add_right ih2 1
          | false => simpa using ih2


open EnrichPlan in
/-- One iteration of the B-roll loop adds at most one assignment, only for
an id still under quota. -/
theorem broll_step_count (cat_items : List CatalogItem) (locked : List String)
    (st : BrollState) (h : Highlight) (base : List Segment) (cid : String)
    (h1 : broll_count st.segments cid ≤ broll_count base cid + st.counts cid)
    (h2 : st.counts cid ≤ MAX_BROLL_REUSE) :
    broll_count (broll_step cat_items locked st h).segments cid ≤
      broll_count base cid + (broll_step cat_items locked st h).counts cid ∧
    (broll_step cat_items locked st h).counts cid ≤ MAX_BROLL_REUSE := by
  unfold broll_step
  cases hstart : h.start with
  | none => exact ⟨h1, h2⟩
  | some s =>
      dsimp only
      cases hloc : locate_segment st.segments s with
      | none => exact ⟨h1, h2⟩
      | some e =>
          dsimp only
          split_ifs with hb hl hs hf hc
          · exact ⟨h1, h2⟩
          · exact ⟨h1, h2⟩
          · exact ⟨h1, h2⟩
          · exact ⟨h1, h2⟩
          · exact ⟨h1, h2⟩
          · cases hch : choose_broll_candidate cat_items st.counts
              (match_broll_candidates (" ".intercalate (List.filter (fun t => !t.isEmpty)
                ([h.keyword.getD ""] ++ h.supportingTexts.getD [] ++
                 (match pyOrOpt e.2.label e.2.title with
                  | some l => if l.isEmpty then [] else [l]
                  | none => []))))) with
          | none => dsimp only; exact ⟨h1, h2⟩
          | some c =>
              dsimp only
              split_ifs with hv hnotes
              · exact ⟨h1, h2⟩
              all_goals
                (have hspec := choose_broll_candidate_spec cat_items st.counts _ c.1 c.2
                  (by rw [Prod.mk.eta]; exact hch)
                 have hget := locate_segment_get? st.segments s e hloc
                 have hnone : e.2.broll = none := Option.not_isSome_iff_eq_none.mp hb
                 by_cases hcid : cid = c.1
                 · have hbeq : (cid == c.1) = true := beq_iff_eq.mpr hcid
                   have hfnew : ((some c.1 : Option String) == some cid) = true := by
                     rw [hcid]; exact beq_iff_eq.mpr rfl
                   constructor
                   · dsimp only
                     rw [hbeq]
                     refine le_trans
                       (broll_count_set_le st.segments e.1 e.2 _ cid hget hnone) ?_
                     dsimp only
                     rw [hspec.1, hfnew]
                     simp only [eq_self_iff_true, if_true]
                     omega
                   · dsimp only
                     rw [hbeq]
                     simp only [eq_self_iff_true, if_true]
                     rw [hcid]
                     exact hspec.2
                 · have hbeq : (cid == c.1) = false := by
                     rw [Bool.eq_false_iff]
                     intro hbe
                     exact hcid (eq_of_beq hbe)
                   have hfnew : ((some c.1 : Option String) == some cid) = false := by
                     rw [Bool.eq_false_iff]
                     intro hbe
                     exact hcid (Option.some.inj (eq_of_beq hbe)).symm
                   constructor
                   · dsimp only
                     rw [hbeq]
                     refine le_trans
                       (broll_count_set_le st.segments e.1 e.2 _ cid hget hnone) ?_
                     dsimp only
                     rw [hspec.1, hfnew]
                     simp only [Bool.false_eq_true, if_false]
                     omega
                   · dsimp only
                     rw [hbeq]
                     simp only [Bool.false_eq_true, if_false]
                     exact h2)

open EnrichPlan in
/-- The whole B-roll loop keeps every per-id assignment count within the
input count plus the quota. -/
theorem broll_fold_count (cat_items : List CatalogItem) (locked : List String)
    (l : List Highlight) :
    ∀ (st : BrollState) (base : List Segment) (cid : String),
    broll_count st.segments cid ≤ broll_count base cid + st.counts cid →
    st.counts cid ≤ MAX_BROLL_REUSE →
    broll_count (l.foldl (broll_step cat_items locked) st).segments cid ≤
      broll_count base cid + (l.foldl (broll_step cat_items locked) st).counts cid ∧
    (l.foldl (broll_step cat_items locked) st).counts cid ≤ MAX_BROLL_REUSE := by
  induction l with
  | nil => exact fun st base cid h1 h2 => ⟨h1, h2⟩
  | cons x xs ih =>
      intro st base cid h1 h2
      rw [List.foldl_cons]
      obtain ⟨g1, g2⟩ := broll_step_count cat_items locked st x base cid h1 h2
      exact ih _ base cid g1 g2

open EnrichPlan in
/-- C6 counterexample: the scored per-segment selection path of
`enrich_plan` has no reuse quota, so one catalog id can be assigned to
three segments. -/
theorem C6_counterexample :
    broll_count (enrich_pipeline mono_scene (some mono_catalog) none none (3/2)
      three_segment_plan).segments "data_analysis" = 3 ∧
    MAX_BROLL_REUSE < 3 := by
  constructor
  · with_unfolding_all decide
  · decide

open EnrichPlan in
/-- C6 (amended): the highlight-driven pass `ensure_broll_from_highlights`
respects the quota — it attaches any single catalog id to at most
`MAX_BROLL_REUSE = 2` segments beyond those already assigned in its input.
(The scored per-segment path of `enrich_plan` has no such cap, as the
counterexample shows.) -/
theorem C6_amended_broll_reuse_cap (bc : Option BrollCatalog) (p : Plan)
    (cid : String) :
    broll_count (ensure_broll_from_highlights bc p).segments cid ≤
      broll_count p.segments cid + MAX_BROLL_REUSE := by
  cases bc with
  | none => exact Nat.le_add_right _ _
  | some cat =>
      simp only [ensure_broll_from_highlights]
      split_ifs with hh1 hh2 hh3
      · exact Nat.le_add_right _ _
      · exact Nat.le_add_right _ _
      · exact Nat.le_add_right _ _
      · dsimp only
        obtain ⟨g1, g2⟩ := broll_fold_count cat.items (section_locked p) p.highlights
          { segments := p.segments, counts := fun _ => 0 } p.segments cid
          (by simp) (by simp [MAX_BROLL_REUSE])
        calc broll_count _ cid
            ≤ broll_count p.segments cid +
              (p.highlights.foldl (broll_step cat.items (section_locked p))
                { segments := p.segments, counts := fun _ => 0 }).counts cid := g1
          _ ≤ broll_count p.segments cid + MAX_BROLL_REUSE :=
              Nat.add_le_add_left g2 _


/-! ## C4: pruning -/

/-- `l.contains b` decides membership, for any lawful `BEq` instance. -/
theorem contains_iff_mem {β : Type} [BEq β] [LawfulBEq β] {l : List β} {b : β} :
    l.contains b = true ↔ b ∈ l := by
  induction l with
  | nil => simp
  | cons x xs ih =>
      simp only [List.contains_cons, Bool.or_eq_true, beq_iff_eq, List.mem_cons, ih]

/-- Filtering a duplicate-free list by key membership in a duplicate-free
subset keeps exactly one element per subset key. -/
theorem filter_mem_length {α β : Type} [BEq β] [LawfulBEq β] (f : α → β) :
    ∀ (l : List α) (ids : List β),
    (l.map f).Nodup → ids.Nodup → (∀ b ∈ ids, b ∈ l.map f) →
    (l.filter (fun a => ids.contains (f a))).length = ids.length := by
  intro l
  induction l with
  | nil =>
      intro ids _ _ hsub
      have hnil : ids = [] :=
        List.eq_nil_iff_forall_not_mem.mpr (fun b hb => by simpa using hsub b hb)
      simp [hnil]
  | cons x xs ih =>
      intro ids hnodup hids hsub
      rw [List.map_cons, List.nodup_cons] at hnodup
      obtain ⟨hfx, hxs⟩ := hnodup
      simp only [List.filter]
      cases hmem : ids.contains (f x) with
      | true =>
          dsimp only
          have hfxmem : f x ∈ ids := contains_iff_mem.mp hmem
          have hfilter_eq : xs.filter (fun a => ids.contains (f a)) =
              xs.filter (fun a => (ids.erase (f x)).contains (f a)) := by
            apply List.filter_congr
            intro a ha
            have hne : f a ≠ f x := fun he => hfx (he ▸ List.mem_map_of_mem f ha)
            have hiff : f a ∈ ids ↔ f a ∈ ids.erase (f x) :=
              (List.mem_erase_of_ne hne).symm
            cases hin : ids.contains (f a) with
            | true =>
                exact (contains_iff_mem.mpr (hiff.mp (contains_iff_mem.mp hin))).symm
            | false =>
                cases hin2 : (ids.erase (f x)).contains (f a) with
                | true =>
                    have h3 := hiff.mpr (contains_iff_mem.mp hin2)
                    rw [← contains_iff_mem, hin] at h3
                    exact absurd h3 (by simp)
                | false => rfl
          rw [List.length_cons, hfilter_eq]
          rw [ih (ids.erase (f x)) hxs (hids.sublist (List.erase_sublist (f x) ids)) ?_]
          · have h1 := List.length_erase_of_mem hfxmem
            have h2 : 1 ≤ ids.length :=
              List.length_pos.mpr (List.ne_nil_of_mem hfxmem)
            omega
          · intro b hb
            obtain ⟨hbne, hbmem⟩ := (hids.mem_erase_iff).mp hb
            have h3 := hsub b hbmem
            rw [List.map_cons] at h3
            rcases List.mem_cons.mp h3 with h4 | h4
            · exact absurd h4 hbne
            · exact h4
      | false =>
          dsimp only
          apply ih ids hxs hids
          intro b hb
          have h3 := hsub b hb
          rw [List.map_cons] at h3
          rcases List.mem_cons.mp h3 with h4 | h4
          · subst h4
            rw [← contains_iff_mem, hmem] at hb
            exact absurd hb (by simp)
          · exact h4

open EnrichPlan in
/-- C4 counterexample: pruning retains highlights by id, so 21 highlights
sharing one id all survive a prune capped at 20. -/
theorem C4_counterexample :
    dup_id_example.highlights.length = 21 ∧
    (prune_highlights MAX_TOTAL_HIGHLIGHTS dup_id_example).highlights.length = 21 ∧
    MAX_TOTAL_HIGHLIGHTS < 21 := by
  refine ⟨by with_unfolding_all decide, by with_unfolding_all decide, by decide⟩


open EnrichPlan in
/-- C4 (amended): when all highlight ids are distinct, pruning keeps
exactly `min (count, max_total)` highlights, and a list already within the
cap is left unchanged.  (With duplicated ids the id-based retention can
keep more than `max_total`, as the counterexample shows.) -/
theorem C4_amended_prune_cap (m : ℕ) (p : Plan)
    (hids : (p.highlights.map (fun h => h.id)).Nodup) :
    (prune_highlights m p).highlights.length = min p.highlights.length m ∧
    (p.highlights.length ≤ m → prune_highlights m p = p) := by
  unfold prune_highlights
  split_ifs with h
  · refine ⟨?_, fun _ => rfl⟩
    have hle : p.highlights.length ≤ m := by
      simp only [Bool.or_eq_true, decide_eq_true_eq] at h
      rcases h with h1 | h1
      · rw [List.isEmpty_iff] at h1
        rw [h1]
        simp
      · exact h1
    rw [min_eq_left hle]
  · simp only [Bool.or_eq_true, decide_eq_true_eq, not_or] at h
    have hlen : m < p.highlights.length := not_le.mp h.2
    refine ⟨?_, fun hle => absurd hle h.2⟩
    dsimp only
    set scored := p.highlights.enum.map
      (fun e => (score_highlight e.2, e.2.start.getD 0, e.1, e.2)) with hscored
    set sorted := sortByKey
      (fun (e : ℚ × ℚ × ℕ × Highlight) => toLex (-e.1, toLex (e.2.1, e.2.2.1)))
      scored with hsorted
    set retained := (sorted.take m).map (fun e => e.2.2.2.id) with hretained
    have hperm1 : sorted.Perm scored := sortByKey_perm _ _
    have hmap : scored.map (fun (e : ℚ × ℚ × ℕ × Highlight) => e.2.2.2.id) =
        p.highlights.map (fun h => h.id) := by
      rw [hscored, List.map_map]
      rw [show ((fun (e : ℚ × ℚ × ℕ × Highlight) => e.2.2.2.id) ∘
          (fun (e : ℕ × Highlight) =>
            (score_highlight e.2, e.2.start.getD 0, e.1, e.2))) =
          ((fun (h : Highlight) => h.id) ∘ Prod.snd) from rfl]
      rw [← List.map_map, List.enum_map_snd]
    have hpermids : (sorted.map (fun (e : ℚ × ℚ × ℕ × Highlight) => e.2.2.2.id)).Perm
        (p.highlights.map (fun h => h.id)) := by
      rw [← hmap]
      exact hperm1.map _
    have hnodupS : (sorted.map (fun (e : ℚ × ℚ × ℕ × Highlight) => e.2.2.2.id)).Nodup :=
      hpermids.nodup_iff.mpr hids
    have hsubl : retained.Sublist
        (sorted.map (fun (e : ℚ × ℚ × ℕ × Highlight) => e.2.2.2.id)) := by
      rw [hretained]
      exact (List.take_sublist m sorted).map _
    have hnodupR : retained.Nodup := hnodupS.sublist hsubl
    have hsubR : ∀ b ∈ retained, b ∈ p.highlights.map (fun h => h.id) :=
      fun b hb => hpermids.mem_iff.mp (hsubl.subset hb)
    have hlenS : scored.length = p.highlights.length := by
      rw [hscored, List.length_map, List.enum_length]
    have hlenR : retained.length = m := by
      rw [hretained, List.length_map, List.length_take, hperm1.length_eq, hlenS]
      exact min_eq_left (le_of_lt hlen)
    calc (sortByKey (fun (h : Highlight) => h.start.getD 0)
            (p.highlights.filter (fun item => retained.contains item.id))).length
        = (p.highlights.filter (fun item => retained.contains item.id)).length :=
          (sortByKey_perm _ _).length_eq
      _ = retained.length :=
          filter_mem_length (fun (h : Highlight) => h.id) p.highlights retained
            hids hnodupR hsubR
      _ = m := hlenR
      _ = min p.highlights.length m := (min_eq_right (le_of_lt hlen)).symm

open EnrichPlan in
/-- Witness for `C4_amended_prune_cap`: pruning a two-highlight plan with
distinct ids to a cap of 1 keeps exactly one highlight. -/
theorem C4_witness :
    (prune_highlights 1 c4_plan).highlights.length = min c4_plan.highlights.length 1 ∧
    (c4_plan.highlights.length ≤ 1 → prune_highlights 1 c4_plan = c4_plan) :=
  C4_amended_prune_cap 1 c4_plan (by with_unfolding_all decide)

end VideoBE
